import Mathlib

/-!
Shallow embedding of the Leaderboard service (src/src/app.service.ts).

The round-sync tick `populateLeaderboard` is modelled as a function from the
persisted state (round pointer + ranking matrix) and the external round data
to the list of state-changing operations it performs (in program order) and
the resulting state.  Numbers are modelled as rationals: big.js is exact
decimal arithmetic except that `div` rounds its result to `Big.DP = 20`
decimal places with rounding mode `Big.RM = 1` (round half away from zero),
and `round(dp, 0)` rounds toward zero; both are modelled explicitly.
-/

namespace Leaderboard

/-! ### big.js arithmetic -/

/-- Integer part of a rational, rounding toward zero. -/
def truncInt (q : ℚ) : ℤ := q.num.tdiv q.den

/-- big.js `x.round(dp, 0)`: round to `dp` decimal places toward zero
(big.js rounding mode 0, i.e. truncation).  This is the rounding mode the
source passes at every `.round(7, 0)` / `.round(3, 0)` call site. -/
def bigRound0 (dp : ℕ) (q : ℚ) : ℚ := (truncInt (q * 10 ^ dp) : ℚ) / 10 ^ dp

/-- Nearest integer, ties rounded away from zero. -/
def halfAwayInt (q : ℚ) : ℤ :=
  if 0 ≤ q.num then (2 * q.num + q.den).tdiv (2 * q.den)
  else -((2 * (-q.num) + q.den).tdiv (2 * q.den))

/-- Round to `dp` decimal places, half away from zero (big.js rounding
mode 1, the default `Big.RM`).  This also serves as the model of the
spec's "round-half-away-from-zero" mode. -/
def bigRound1 (dp : ℕ) (q : ℚ) : ℚ := (halfAwayInt (q * 10 ^ dp) : ℚ) / 10 ^ dp

/-- big.js `a.div(b)`: the exact quotient rounded to `Big.DP = 20` decimal
places using `Big.RM = 1`.  (big.js throws on `b = 0`; the tick model
checks for that case explicitly before dividing.) -/
def bigDiv (a b : ℚ) : ℚ := bigRound1 20 (a / b)

/-- JavaScript `x || 1` on a numeric score: `0` is falsy. -/
def orOne (q : ℚ) : ℚ := if q = 0 then 1 else q

/-! ### Matrix configuration (onApplicationBootstrap, lines 46-128) -/

inductive UpdatePolicy
  | aggregate
  | replace
deriving DecidableEq

/-- Dimension names, in declaration order (lines 47-53).  `world` has no
cycle; the four `best-*` dimensions are cyclical. -/
def dimensionNames : List String :=
  ["world", "best-month", "best-week", "best-day", "best-hour"]

/-- The cyclical dimensions (every dimension except `world`). -/
def cyclicalDimensions : List String :=
  ["best-month", "best-week", "best-day", "best-hour"]

/-- Feature names with their update policies (lines 54-127).  Every feature
uses sortPolicy high-to-low and limitTopN 500. -/
def features : List (String × UpdatePolicy) :=
  [("amount_played", .aggregate), ("total_bet", .aggregate),
   ("winnings", .aggregate), ("bnb_won", .aggregate),
   ("bnb_won_even", .aggregate), ("losses", .aggregate),
   ("winnings_even_money", .aggregate), ("winrate", .replace),
   ("avg_bet", .replace)]

def updatePolicyOf (f : String) : UpdatePolicy :=
  (features.lookup f).getD .aggregate

/-! ### Ranking matrix state

A matrix cell is addressed by (dimension, feature); a cyclical cell holds one
table per period key, the `world` cell holds a single bare table.  We address
every table uniformly by (dimension, feature, period key, participant id),
using the constant period key `"world"` for the bare `world` tables. -/

abbrev Mat := String → String → String → String → Option ℚ

abbrev MatrixEntry := String × List (String × ℚ)

/-- The period key a dimension's updates and reads are routed to:
`getLeaderboardNow()` (current period) for cyclical dimensions, the single
bare table for `world`. -/
def periodOf (keyNow : String → String) (d : String) : String :=
  if d = "world" then "world" else keyNow d

/-- redis-rank table update: aggregate adds to the current score (0 if
absent), replace overwrites it. -/
def cellUpdate (p : UpdatePolicy) (old : Option ℚ) (v : ℚ) : ℚ :=
  match p with
  | .aggregate => old.getD 0 + v
  | .replace => v

/-- Apply one (feature, value) update for one entry id to one dimension's
current-period table. -/
def updateOne (keyNow : String → String) (m : Mat) (d : String)
    (fv : String × ℚ) (id : String) : Mat :=
  fun d' f' p' u' =>
    if d' = d ∧ f' = fv.1 ∧ p' = periodOf keyNow d ∧ u' = id then
      some (cellUpdate (updatePolicyOf fv.1) (m d' f' p' u') fv.2)
    else m d' f' p' u'

/-- Apply one matrix entry (id plus feature-value map) across the given
dimensions. -/
def applyEntry (keyNow : String → String) (m : Mat) (dims : List String)
    (e : MatrixEntry) : Mat :=
  dims.foldl (fun m d => e.2.foldl (fun m fv => updateOne keyNow m d fv e.1) m) m

/-- redis-rank `LeaderboardMatrix.update(batch, dims)`: every entry's features
are applied to the current-period table of every requested dimension. -/
def matrixUpdate (keyNow : String → String) (m : Mat)
    (batch : List MatrixEntry) (dims : List String) : Mat :=
  batch.foldl (fun m e => applyEntry keyNow m dims e) m

/-! ### Expiry sweep (deleteOld, lines 371-401) -/

def deleteOldFeatures : List String := ["amount_played"]

def deleteOldDimensions : List String :=
  ["best-month", "best-week", "best-day", "best-hour"]

/-- Models `deleteOld`: for each cyclical dimension and each swept feature it
clears every existing period table whose key differs from `getKeyNow()`.
The source iterates `getExistingKeys()` and clears those tables; clearing a
table that was never materialized (always empty here) is a no-op, so the
pointwise formulation over all period keys is extensionally that loop. -/
def deleteOld (keyNow : String → String) (m : Mat) : Mat :=
  fun d f p u =>
    if d ∈ deleteOldDimensions ∧ f ∈ deleteOldFeatures ∧ p ≠ keyNow d then none
    else m d f p u

/-! ### External round data -/

structure Bet where
  userId : String
  amount : ℚ
  position : String
deriving DecidableEq

/-- A round as held by the external source: resolved winning side (`none`
while unresolved), full bet list, and the side aggregates. -/
structure Round where
  position : Option String
  bets : List Bet
  totalAmount : ℚ
  bullAmount : ℚ
  bearAmount : ℚ
deriving DecidableEq

def fetchRoundFirst : ℕ := 1000

def fetchRoundSkip : ℕ := 0

/-- Models `fetchRound`'s GraphQL query: `bets(first: 1000, skip: $skip)` with
`skip` always 0 and no pagination loop, so only the first 1000 bet records of
the round are returned. -/
def fetchRound (r : Round) : Round :=
  { r with bets := (r.bets.drop fetchRoundSkip).take fetchRoundFirst }

/-! ### Pipeline tick -/

/-- Persisted state the tick reads and writes: the Redis round pointer and
the ranking matrix. -/
structure St where
  ptr : Option ℤ
  mat : Mat

/-- State-affecting operations of one tick, in program order.  `readPtr`,
`fetchLatest` and `fetchRound` do not change `St` but record where in the
tick the reads happen. -/
inductive Event
  | sweep
  | readPtr
  | fetchLatest
  | setPtr (p : ℤ)
  | fetchRound (n : ℤ)
  | update (batch : List MatrixEntry) (dims : List String)
deriving DecidableEq

def applyEvent (keyNow : String → String) (s : St) : Event → St
  | .sweep => { s with mat := deleteOld keyNow s.mat }
  | .setPtr p => { s with ptr := some p }
  | .update batch dims => { s with mat := matrixUpdate keyNow s.mat batch dims }
  | _ => s

/-- Lookup used by the derived-metrics step: `find(id)` on a cell's current
table, with `?.score || 0` defaulting to 0. -/
def cellFind (keyNow : String → String) (m : Mat) (d f id : String) : ℚ :=
  (m d f (periodOf keyNow d) id).getD 0

/-- Which leaderboard the `prevDataTotalBet` read uses (lines 322-330): for
`world` the source reads `lbWinnings`, not `lbTotalBet`. -/
def prevTotalBetFeature (d : String) : String :=
  if d = "world" then "winnings" else "total_bet"

/-- Which leaderboard the `prevAmountPlayed` read uses (lines 332-340): for
`world` the source reads `lbWinnings`, not `lbAmountPlayed`. -/
def prevAmountPlayedFeature (d : String) : String :=
  if d = "world" then "winnings" else "amount_played"

/-- One derived-metrics batch entry for one bet and one dimension
(lines 296-354): read the participant's current winnings / total-bet /
amount-played scores (via the feature selectors above), then
`winrate = winnings.div(amountPlayed || 1).round(3, 0)` and
`avg_bet = totalBet.div(amountPlayed || 1).round(3, 0)`. -/
def derivedEntry (keyNow : String → String) (m : Mat) (d : String) (b : Bet) :
    MatrixEntry :=
  let prevDataWinnings := cellFind keyNow m d "winnings" b.userId
  let prevDataTotalBet := cellFind keyNow m d (prevTotalBetFeature d) b.userId
  let prevAmountPlayed := cellFind keyNow m d (prevAmountPlayedFeature d) b.userId
  (b.userId,
    [("winrate", bigRound0 3 (bigDiv prevDataWinnings (orOne prevAmountPlayed))),
     ("avg_bet", bigRound0 3 (bigDiv prevDataTotalBet (orOne prevAmountPlayed)))])

/-- One linear-metrics batch entry for one bet (lines 261-289).  `1 - 0.03`
is the JavaScript float 0.97, converted by big.js via its decimal string, so
it is the exact decimal 97/100. -/
def linearEntry (pos : String) (bullPayout bearPayout : ℚ) (b : Bet) :
    MatrixEntry :=
  (b.userId,
    [("amount_played", 1),
     ("total_bet", bigRound0 7 b.amount),
     ("winnings", if b.position = pos then 1 else 0),
     ("losses", if b.position ≠ pos then 1 else 0),
     ("bnb_won",
       if b.position = pos then
         bigRound0 7 ((if pos = "Bull" then bullPayout else bearPayout)
           * b.amount * (1 - 3 / 100) - b.amount)
       else 0),
     ("bnb_won_even",
       if b.position = pos then
         bigRound0 7 ((if pos = "Bull" then bullPayout else bearPayout)
           * 1 * (1 - 3 / 100) - 1)
       else 0)])

/-- One step of the per-dimension derived-metrics loop (lines 292-361): the
batch for a dimension is computed from the matrix state as it is when that
dimension is processed, then applied scoped to that one dimension. -/
def derivedStep (keyNow : String → String) (bets : List Bet)
    (acc : List Event × Mat) (d : String) : List Event × Mat :=
  let batch := bets.map (derivedEntry keyNow acc.2 d)
  (acc.1 ++ [Event.update batch [d]], matrixUpdate keyNow acc.2 batch [d])

def runDerived (keyNow : String → String) (bets : List Bet) (m : Mat)
    (dims : List String) : List Event × Mat :=
  dims.foldl (derivedStep keyNow bets) ([], m)

/-- Matrix-only view of the derived-metrics loop. -/
def derivedMat (keyNow : String → String) (bets : List Bet) (m : Mat)
    (dims : List String) : Mat :=
  dims.foldl
    (fun m d => matrixUpdate keyNow m (bets.map (derivedEntry keyNow m d)) [d]) m

/-- Processing of a fetched round (lines 243-364), entered with the events
performed so far and the state after the sweep.  Aborts (error thrown, caught
at the tick boundary) if the round is unresolved or a payout division has a
zero divisor; otherwise: optimistic pointer advance, one aggregate update
over all dimensions, then the per-dimension replace updates. -/
def runRound (keyNow : String → String) (p : ℤ) (r : Round) (ev : List Event)
    (s : St) : List Event × St :=
  match r.position with
  | none => (ev, s)
  | some pos =>
    if r.bullAmount = 0 ∨ r.bearAmount = 0 then (ev, s)
    else
      let bullPayout := bigDiv r.totalAmount r.bullAmount
      let bearPayout := bigDiv r.totalAmount r.bearAmount
      let linBatch := r.bets.map (linearEntry pos bullPayout bearPayout)
      let s2 : St :=
        { ptr := some (p + 1),
          mat := matrixUpdate keyNow s.mat linBatch dimensionNames }
      let der := runDerived keyNow r.bets s2.mat dimensionNames
      (ev ++ [Event.setPtr (p + 1), Event.update linBatch dimensionNames]
          ++ der.1,
       { s2 with mat := der.2 })

/-- One tick of `populateLeaderboard` (lines 231-369).  `readOnly` suppresses
the whole tick; otherwise: sweep, read the pointer (seeding it from the
second entry of the latest-rounds list when absent, aborting when that list
has fewer than two entries), fetch the round, and process it.  Any abort
corresponds to a thrown error that the tick's catch block swallows. -/
def populateLeaderboard (readOnly : Bool) (keyNow : String → String)
    (latestRounds : List ℤ) (roundOf : ℤ → Option Round) (s : St) :
    List Event × St :=
  if readOnly then ([], s)
  else
    let s1 : St := { s with mat := deleteOld keyNow s.mat }
    match s.ptr with
    | some p =>
      match roundOf p with
      | none => ([Event.sweep, Event.readPtr, Event.fetchRound p], s1)
      | some r0 =>
        runRound keyNow p (fetchRound r0)
          [Event.sweep, Event.readPtr, Event.fetchRound p] s1
    | none =>
      match latestRounds[1]? with
      | none => ([Event.sweep, Event.readPtr, Event.fetchLatest], s1)
      | some seed =>
        let s2 : St := { s1 with ptr := some seed }
        match roundOf seed with
        | none =>
          ([Event.sweep, Event.readPtr, Event.fetchLatest, Event.setPtr seed,
            Event.fetchRound seed], s2)
        | some r0 =>
          runRound keyNow seed (fetchRound r0)
            [Event.sweep, Event.readPtr, Event.fetchLatest,
             Event.setPtr seed, Event.fetchRound seed] s2

/-- Pointwise effect of one entry's value list on one cell: every (feature,
value) pair whose feature matches is applied with its policy, in order. -/
def applyVals (f : String) (x : Option ℚ) (vs : List (String × ℚ)) : Option ℚ :=
  vs.foldl
    (fun x fv =>
      if fv.1 = f then some (cellUpdate (updatePolicyOf fv.1) x fv.2) else x) x

/-! ### Concrete scenario inputs used by counterexamples and witnesses -/

/-- A fixed current-period key assignment for concrete runs. -/
def keyNowC : String → String := fun _ => "now"

def emptyMat : Mat := fun _ _ _ _ => none

/-- C6 scenario: bets [{A,10,Bull},{B,5,Bear}], totals 15/10/5, Bull wins. -/
def betA : Bet := { userId := "A", amount := 10, position := "Bull" }

def betB : Bet := { userId := "B", amount := 5, position := "Bear" }

def c6Round : Round :=
  { position := some "Bull", bets := [betA, betB], totalAmount := 15,
    bullAmount := 10, bearAmount := 5 }

def c6St : St := { ptr := some 5, mat := emptyMat }

def c6RoundOf : ℤ → Option Round := fun n => if n = 5 then some c6Round else none

def c6Run : List Event × St := populateLeaderboard false keyNowC [] c6RoundOf c6St

/-- C6 counterexample bet: a winning bet of 10⁻⁸ BNB, whose bnb_won
contribution truncates to 0 at 7 decimal places. -/
def c6cBet : Bet := { userId := "A", amount := 1 / 100000000, position := "Bull" }

def c6cRound : Round :=
  { position := some "Bull", bets := [c6cBet], totalAmount := 15,
    bullAmount := 10, bearAmount := 5 }

def c6cRoundOf : ℤ → Option Round :=
  fun n => if n = 5 then some c6cRound else none

def c6cRun : List Event × St :=
  populateLeaderboard false keyNowC [] c6cRoundOf c6St

/-- C1 counterexample: participant A enters the round with winnings 3,
amount_played 4 and total_bet 8 on the best-hour current-period tables. -/
def c1Mat : Mat := fun d f p u =>
  if d = "best-hour" ∧ p = "now" ∧ u = "A" then
    (if f = "winnings" then some 3
     else if f = "amount_played" then some 4
     else if f = "total_bet" then some 8 else none)
  else none

def c1St : St := { ptr := some 5, mat := c1Mat }

def c1Bet : Bet := { userId := "A", amount := 10, position := "Bull" }

def c1Round : Round :=
  { position := some "Bull", bets := [c1Bet], totalAmount := 15,
    bullAmount := 10, bearAmount := 5 }

def c1RoundOf : ℤ → Option Round := fun n => if n = 5 then some c1Round else none

def c1Run : List Event × St := populateLeaderboard false keyNowC [] c1RoundOf c1St

/-- C2 failing input: participant A enters the round with world scores
winnings 2, total_bet 50, amount_played 10, and loses a 5 BNB Bull bet. -/
def c2Mat : Mat := fun d f p u =>
  if d = "world" ∧ p = "world" ∧ u = "A" then
    (if f = "winnings" then some 2
     else if f = "total_bet" then some 50
     else if f = "amount_played" then some 10 else none)
  else none

def c2Bet : Bet := { userId := "A", amount := 5, position := "Bull" }

def c2Round : Round :=
  { position := some "Bear", bets := [c2Bet], totalAmount := 15,
    bullAmount := 7, bearAmount := 8 }

def c2St : St := { ptr := some 5, mat := c2Mat }

def c2RoundOf : ℤ → Option Round := fun n => if n = 5 then some c2Round else none

def c2Run : List Event × St := populateLeaderboard false keyNowC [] c2RoundOf c2St

/-- C3 counterexample: a resolved round in which nobody bet Bull, so the
bull-payout division has a zero divisor and throws before the advance. -/
def c3Round : Round :=
  { position := some "Bull", bets := [], totalAmount := 15,
    bullAmount := 0, bearAmount := 5 }

def c3RoundOf : ℤ → Option Round := fun n => if n = 5 then some c3Round else none

def c3Run : List Event × St := populateLeaderboard false keyNowC [] c3RoundOf c6St

/-- C4 counterexample bet: amount 1.5·10⁻⁷, whose 7-decimal rounding
distinguishes truncation (10⁻⁷) from half-away-from-zero (2·10⁻⁷). -/
def c4Bet : Bet := { userId := "A", amount := 3 / 20000000, position := "Bull" }

def c4Round : Round :=
  { position := some "Bull", bets := [c4Bet], totalAmount := 15,
    bullAmount := 10, bearAmount := 5 }

def c4RoundOf : ℤ → Option Round := fun n => if n = 5 then some c4Round else none

def c4Run : List Event × St := populateLeaderboard false keyNowC [] c4RoundOf c6St

/-- C5 counterexample: a stale best-hour period table holds an entry while
the fetched round is still unresolved. -/
def c5Mat : Mat := fun d f p u =>
  if d = "best-hour" ∧ f = "amount_played" ∧ p = "old" ∧ u = "A" then some 3
  else none

def c5Round : Round :=
  { position := none, bets := [], totalAmount := 15, bullAmount := 10,
    bearAmount := 5 }

def c5St : St := { ptr := some 5, mat := c5Mat }

def c5RoundOf : ℤ → Option Round := fun n => if n = 5 then some c5Round else none

def c5Run : List Event × St := populateLeaderboard false keyNowC [] c5RoundOf c5St

/-- C7 counterexample: no persisted pointer and exactly one finalized round
available from the external source. -/
def c7St : St := { ptr := none, mat := emptyMat }

def c7Run : List Event × St :=
  populateLeaderboard false keyNowC [9] (fun _ => none) c7St

/-! ### Cell-level lemmas about matrix updates -/

theorem foldl_cell_frame {α : Type} (g : Mat → α → Mat) (d f p u : String) :
    ∀ (l : List α) (m : Mat),
      (∀ (m : Mat) (a : α), a ∈ l → g m a d f p u = m d f p u) →
      l.foldl g m d f p u = m d f p u := by
  intro l
  induction l with
  | nil => intro m _; rfl
  | cons a t ih =>
    intro m hg
    rw [List.foldl_cons,
      ih (g m a) (fun m b hb => hg m b (List.mem_cons_of_mem a hb))]
    exact hg m a (List.mem_cons_self a t)

theorem foldVals_cell (keyNow : String → String) (d0 id : String)
    (d f p u : String) :
    ∀ (vs : List (String × ℚ)) (m : Mat),
      (vs.foldl (fun m fv => updateOne keyNow m d0 fv id) m) d f p u =
        if d = d0 ∧ p = periodOf keyNow d0 ∧ u = id then
          applyVals f (m d f p u) vs
        else m d f p u := by
  intro vs
  induction vs with
  | nil =>
    intro m
    by_cases hD : d = d0 ∧ p = periodOf keyNow d0 ∧ u = id <;>
      simp [applyVals, hD]
  | cons fv vs ih =>
    intro m
    rw [List.foldl_cons, ih]
    by_cases hD : d = d0 ∧ p = periodOf keyNow d0 ∧ u = id
    · obtain ⟨h1, h2, h3⟩ := hD
      subst h1; subst h2; subst h3
      by_cases hf : fv.1 = f
      · subst hf
        simp [updateOne, applyVals]
      · have hf2 : ¬f = fv.1 := fun h => hf h.symm
        simp [updateOne, applyVals, hf, hf2]
    · have hD' : ¬(d = d0 ∧ f = fv.1 ∧ p = periodOf keyNow d0 ∧ u = id) := by
        tauto
      simp only [updateOne, if_neg hD, if_neg hD']

theorem applyEntry_cell (keyNow : String → String) (e : MatrixEntry)
    (d f p u : String) :
    ∀ (dims : List String) (m : Mat), dims.Nodup →
      applyEntry keyNow m dims e d f p u =
        if d ∈ dims ∧ p = periodOf keyNow d ∧ u = e.1 then
          applyVals f (m d f p u) e.2
        else m d f p u := by
  intro dims
  induction dims with
  | nil => intro m _; simp [applyEntry]
  | cons d0 ds ih =>
    intro m hnd
    have step : applyEntry keyNow m (d0 :: ds) e
        = applyEntry keyNow
            (e.2.foldl (fun m fv => updateOne keyNow m d0 fv e.1) m) ds e := rfl
    rw [step, ih _ (List.nodup_cons.mp hnd).2, foldVals_cell]
    by_cases hd0 : d = d0
    · subst hd0
      have hds : d ∉ ds := (List.nodup_cons.mp hnd).1
      by_cases hP : p = periodOf keyNow d ∧ u = e.1
      · simp [hP.1, hP.2, hds]
      · simp [hP]
    · simp [hd0, List.mem_cons]

theorem applyVals_frame (f : String) :
    ∀ (vs : List (String × ℚ)) (x : Option ℚ),
      (∀ fv ∈ vs, fv.1 ≠ f) → applyVals f x vs = x := by
  intro vs
  induction vs with
  | nil => intro x _; rfl
  | cons fv vs ih =>
    intro x h
    have h1 : fv.1 ≠ f := h fv (List.mem_cons_self fv vs)
    simp only [applyVals, List.foldl_cons, if_neg h1]
    exact ih x (fun fv hfv => h fv (List.mem_cons_of_mem _ hfv))

theorem applyEntry_cell_frame_id (keyNow : String → String) (m : Mat)
    (dims : List String) (e : MatrixEntry) (d f p u : String) (h : e.1 ≠ u) :
    applyEntry keyNow m dims e d f p u = m d f p u := by
  apply foldl_cell_frame
  intro m d0 _
  apply foldl_cell_frame
  intro m fv _
  have h2 : ¬u = e.1 := fun hh => h hh.symm
  simp [updateOne, h2]

theorem applyEntry_cell_frame_feature (keyNow : String → String) (m : Mat)
    (dims : List String) (e : MatrixEntry) (d f p u : String)
    (h : ∀ fv ∈ e.2, fv.1 ≠ f) :
    applyEntry keyNow m dims e d f p u = m d f p u := by
  apply foldl_cell_frame
  intro m d0 _
  apply foldl_cell_frame
  intro m fv hfv
  have h2 : ¬f = fv.1 := fun hh => h fv hfv hh.symm
  simp [updateOne, h2]

theorem applyEntry_cell_frame_dim (keyNow : String → String) (m : Mat)
    (dims : List String) (e : MatrixEntry) (d f p u : String) (h : d ∉ dims) :
    applyEntry keyNow m dims e d f p u = m d f p u := by
  apply foldl_cell_frame
  intro m d0 hd0
  apply foldl_cell_frame
  intro m fv _
  have h2 : ¬d = d0 := fun hh => h (hh ▸ hd0)
  simp [updateOne, h2]

theorem matrixUpdate_cell_frame_id (keyNow : String → String)
    (dims : List String) (d f p u : String) (batch : List MatrixEntry)
    (m : Mat) (h : ∀ e ∈ batch, e.1 ≠ u) :
    matrixUpdate keyNow m batch dims d f p u = m d f p u := by
  apply foldl_cell_frame
  intro m e he
  exact applyEntry_cell_frame_id keyNow m dims e d f p u (h e he)

theorem matrixUpdate_cell_frame_feature (keyNow : String → String)
    (dims : List String) (d f p u : String) (batch : List MatrixEntry)
    (m : Mat) (h : ∀ e ∈ batch, ∀ fv ∈ e.2, fv.1 ≠ f) :
    matrixUpdate keyNow m batch dims d f p u = m d f p u := by
  apply foldl_cell_frame
  intro m e he
  exact applyEntry_cell_frame_feature keyNow m dims e d f p u (h e he)

theorem matrixUpdate_cell_frame_dim (keyNow : String → String)
    (dims : List String) (d f p u : String) (batch : List MatrixEntry)
    (m : Mat) (h : d ∉ dims) :
    matrixUpdate keyNow m batch dims d f p u = m d f p u := by
  apply foldl_cell_frame
  intro m e _
  exact applyEntry_cell_frame_dim keyNow m dims e d f p u h

theorem matrixUpdate_cell_mem (keyNow : String → String) (dims : List String)
    (d f p u : String) (hdims : dims.Nodup) (hd : d ∈ dims)
    (hp : p = periodOf keyNow d) :
    ∀ (batch : List MatrixEntry) (m : Mat), (batch.map Prod.fst).Nodup →
      ∀ e ∈ batch, e.1 = u →
      matrixUpdate keyNow m batch dims d f p u = applyVals f (m d f p u) e.2 := by
  intro batch
  induction batch with
  | nil => intro m _ e he; exact absurd he (List.not_mem_nil e)
  | cons e0 t ih =>
    intro m hnd e he hu
    have hstep : matrixUpdate keyNow m (e0 :: t) dims
        = matrixUpdate keyNow (applyEntry keyNow m dims e0) t dims := rfl
    have hmap : (e0 :: t).map Prod.fst = e0.1 :: t.map Prod.fst := rfl
    rw [hmap] at hnd
    have hnd' := List.nodup_cons.mp hnd
    rcases List.mem_cons.mp he with h0 | ht
    · subst h0
      have hframe : ∀ e' ∈ t, e'.1 ≠ u := by
        intro e' he' hcon
        exact hnd'.1 (hu ▸ hcon ▸ List.mem_map_of_mem Prod.fst he')
      rw [hstep, matrixUpdate_cell_frame_id keyNow dims d f p u t _ hframe,
        applyEntry_cell keyNow e d f p u dims m hdims,
        if_pos ⟨hd, hp, hu.symm⟩]
    · have h0 : e0.1 ≠ u := by
        intro hcon
        exact hnd'.1 (hcon ▸ hu ▸ List.mem_map_of_mem Prod.fst ht)
      rw [hstep, ih _ hnd'.2 e ht hu,
        applyEntry_cell_frame_id keyNow m dims e0 d f p u h0]

/-! ### Derived-metrics loop lemmas -/

theorem derivedEntry_fst (keyNow : String → String) (m : Mat) (d : String)
    (b : Bet) : (derivedEntry keyNow m d b).1 = b.userId := rfl

theorem derivedBatch_fst (keyNow : String → String) (m : Mat) (d : String)
    (bets : List Bet) :
    ((bets.map (derivedEntry keyNow m d)).map Prod.fst) = bets.map Bet.userId := by
  rw [List.map_map]
  rfl

theorem linearBatch_fst (pos : String) (bp bps : ℚ) (bets : List Bet) :
    ((bets.map (linearEntry pos bp bps)).map Prod.fst) = bets.map Bet.userId := by
  rw [List.map_map]
  rfl

theorem derivedEntry_features (keyNow : String → String) (m : Mat) (d : String)
    (b : Bet) :
    ∀ fv ∈ (derivedEntry keyNow m d b).2, fv.1 = "winrate" ∨ fv.1 = "avg_bet" := by
  intro fv hfv
  simp only [derivedEntry, List.mem_cons, List.not_mem_nil, or_false] at hfv
  rcases hfv with h | h <;> rw [h]
  · exact Or.inl rfl
  · exact Or.inr rfl

theorem linearEntry_features (pos : String) (bp bps : ℚ) (b : Bet) :
    ∀ fv ∈ (linearEntry pos bp bps b).2,
      fv.1 = "amount_played" ∨ fv.1 = "total_bet" ∨ fv.1 = "winnings" ∨
      fv.1 = "losses" ∨ fv.1 = "bnb_won" ∨ fv.1 = "bnb_won_even" := by
  intro fv hfv
  simp only [linearEntry, List.mem_cons, List.not_mem_nil, or_false] at hfv
  rcases hfv with h | h | h | h | h | h <;> rw [h] <;> simp

theorem runDerived_snd (keyNow : String → String) (bets : List Bet) :
    ∀ (dims : List String) (ev : List Event) (m : Mat),
      (dims.foldl (derivedStep keyNow bets) (ev, m)).2 =
        derivedMat keyNow bets m dims := by
  intro dims
  induction dims with
  | nil => intro ev m; rfl
  | cons d0 ds ih =>
    intro ev m
    rw [List.foldl_cons]
    exact ih _ _

theorem runDerived_mat (keyNow : String → String) (bets : List Bet) (m : Mat)
    (dims : List String) :
    (runDerived keyNow bets m dims).2 = derivedMat keyNow bets m dims :=
  runDerived_snd keyNow bets dims [] m

theorem runDerived_events_update (keyNow : String → String) (bets : List Bet) :
    ∀ (dims : List String) (ev : List Event) (m : Mat),
      (∀ e ∈ ev, ∃ batch ds, e = Event.update batch ds) →
      ∀ e ∈ (dims.foldl (derivedStep keyNow bets) (ev, m)).1,
        ∃ batch ds, e = Event.update batch ds := by
  intro dims
  induction dims with
  | nil => intro ev m hev; exact hev
  | cons d0 ds ih =>
    intro ev m hev
    rw [List.foldl_cons]
    refine ih (ev ++ [Event.update (bets.map (derivedEntry keyNow m d0)) [d0]])
      (matrixUpdate keyNow m (bets.map (derivedEntry keyNow m d0)) [d0]) ?_
    intro e he
    rcases List.mem_append.mp he with h | h
    · exact hev e h
    · exact ⟨_, _, List.mem_singleton.mp h⟩

theorem derivedMat_step (keyNow : String → String) (bets : List Bet) (m : Mat)
    (d0 : String) (ds : List String) :
    derivedMat keyNow bets m (d0 :: ds) =
      derivedMat keyNow bets
        (matrixUpdate keyNow m (bets.map (derivedEntry keyNow m d0)) [d0]) ds := rfl

theorem derivedMat_frame_dim (keyNow : String → String) (bets : List Bet)
    (d f p u : String) :
    ∀ (dims : List String) (m : Mat), d ∉ dims →
      derivedMat keyNow bets m dims d f p u = m d f p u := by
  intro dims
  induction dims with
  | nil => intro m _; rfl
  | cons d0 ds ih =>
    intro m hd
    rw [derivedMat_step, ih _ (fun h => hd (List.mem_cons_of_mem d0 h)),
      matrixUpdate_cell_frame_dim]
    intro h
    exact hd (List.mem_cons.mpr (Or.inl (List.mem_singleton.mp h)))

theorem derivedMat_frame_feature (keyNow : String → String) (bets : List Bet)
    (d f p u : String) (hf1 : f ≠ "winrate") (hf2 : f ≠ "avg_bet") :
    ∀ (dims : List String) (m : Mat),
      derivedMat keyNow bets m dims d f p u = m d f p u := by
  intro dims
  induction dims with
  | nil => intro m; rfl
  | cons d0 ds ih =>
    intro m
    rw [derivedMat_step, ih, matrixUpdate_cell_frame_feature]
    intro e he fv hfv
    obtain ⟨b, _, rfl⟩ := List.mem_map.mp he
    rcases derivedEntry_features keyNow m d0 b fv hfv with h | h <;> rw [h]
    · exact fun hh => hf1 hh.symm
    · exact fun hh => hf2 hh.symm

theorem derivedMat_frame_id (keyNow : String → String) (bets : List Bet)
    (d f p u : String) (hu : u ∉ bets.map Bet.userId) :
    ∀ (dims : List String) (m : Mat),
      derivedMat keyNow bets m dims d f p u = m d f p u := by
  intro dims
  induction dims with
  | nil => intro m; rfl
  | cons d0 ds ih =>
    intro m
    rw [derivedMat_step, ih, matrixUpdate_cell_frame_id]
    intro e he hcon
    obtain ⟨b, hb, rfl⟩ := List.mem_map.mp he
    exact hu (hcon ▸ List.mem_map_of_mem Bet.userId hb)

/-! ### Value computations for concrete entry shapes -/

theorem updatePolicyOf_winrate : updatePolicyOf "winrate" = .replace := rfl

theorem updatePolicyOf_avg_bet : updatePolicyOf "avg_bet" = .replace := rfl

theorem applyVals_derived_winrate (x : Option ℚ) (w a : ℚ) :
    applyVals "winrate" x [("winrate", w), ("avg_bet", a)] = some w := by
  simp [applyVals, updatePolicyOf_winrate, cellUpdate]

theorem applyVals_derived_avg_bet (x : Option ℚ) (w a : ℚ) :
    applyVals "avg_bet" x [("winrate", w), ("avg_bet", a)] = some a := by
  simp [applyVals, updatePolicyOf_avg_bet, cellUpdate]

theorem prevTotalBetFeature_ne_winrate (d : String) :
    prevTotalBetFeature d ≠ "winrate" := by
  unfold prevTotalBetFeature
  split <;> decide

theorem prevTotalBetFeature_ne_avg_bet (d : String) :
    prevTotalBetFeature d ≠ "avg_bet" := by
  unfold prevTotalBetFeature
  split <;> decide

theorem prevAmountPlayedFeature_ne_winrate (d : String) :
    prevAmountPlayedFeature d ≠ "winrate" := by
  unfold prevAmountPlayedFeature
  split <;> decide

theorem prevAmountPlayedFeature_ne_avg_bet (d : String) :
    prevAmountPlayedFeature d ≠ "avg_bet" := by
  unfold prevAmountPlayedFeature
  split <;> decide

theorem derived_update_read_frame (keyNow : String → String) (m mr : Mat)
    (d0 : String) (bets : List Bet) (d f u : String) (hf1 : f ≠ "winrate")
    (hf2 : f ≠ "avg_bet") :
    cellFind keyNow
        (matrixUpdate keyNow m (bets.map (derivedEntry keyNow mr d0)) [d0])
        d f u
      = cellFind keyNow m d f u := by
  unfold cellFind
  rw [matrixUpdate_cell_frame_feature]
  intro e he fv hfv
  obtain ⟨b, _, rfl⟩ := List.mem_map.mp he
  rcases derivedEntry_features keyNow mr d0 b fv hfv with h | h <;> rw [h]
  · exact fun hh => hf1 hh.symm
  · exact fun hh => hf2 hh.symm

/-- Final winrate and avg_bet cells of the derived loop: for a participant of
the round, the dimension's replace update stores the ratios computed from the
matrix state the loop started from (the state after the linear update). -/
theorem derivedMat_cell (keyNow : String → String) (bets : List Bet)
    (b : Bet) (hb : b ∈ bets) (hnd : (bets.map Bet.userId).Nodup) :
    ∀ (dims : List String) (m : Mat) (d : String), dims.Nodup → d ∈ dims →
      derivedMat keyNow bets m dims d "winrate" (periodOf keyNow d) b.userId =
        some (bigRound0 3 (bigDiv (cellFind keyNow m d "winnings" b.userId)
          (orOne (cellFind keyNow m d (prevAmountPlayedFeature d) b.userId)))) ∧
      derivedMat keyNow bets m dims d "avg_bet" (periodOf keyNow d) b.userId =
        some (bigRound0 3
          (bigDiv (cellFind keyNow m d (prevTotalBetFeature d) b.userId)
          (orOne (cellFind keyNow m d (prevAmountPlayedFeature d) b.userId)))) := by
  intro dims
  induction dims with
  | nil => intro m d _ hd; exact absurd hd (List.not_mem_nil d)
  | cons d0 ds ih =>
    intro m d hnd_dims hd
    rcases List.mem_cons.mp hd with h0 | hds
    · subst h0
      have hd_not : d ∉ ds := (List.nodup_cons.mp hnd_dims).1
      rw [derivedMat_step,
        derivedMat_frame_dim keyNow bets d "winrate" (periodOf keyNow d)
          b.userId ds _ hd_not,
        derivedMat_frame_dim keyNow bets d "avg_bet" (periodOf keyNow d)
          b.userId ds _ hd_not]
      constructor
      · rw [matrixUpdate_cell_mem keyNow [d] d "winrate" (periodOf keyNow d)
          b.userId (List.nodup_singleton d) (List.mem_singleton.mpr rfl) rfl
          _ m (by rw [derivedBatch_fst]; exact hnd)
          (derivedEntry keyNow m d b) (List.mem_map_of_mem _ hb) rfl]
        exact applyVals_derived_winrate _ _ _
      · rw [matrixUpdate_cell_mem keyNow [d] d "avg_bet" (periodOf keyNow d)
          b.userId (List.nodup_singleton d) (List.mem_singleton.mpr rfl) rfl
          _ m (by rw [derivedBatch_fst]; exact hnd)
          (derivedEntry keyNow m d b) (List.mem_map_of_mem _ hb) rfl]
        exact applyVals_derived_avg_bet _ _ _
    · rw [derivedMat_step]
      have hih := ih (matrixUpdate keyNow m
        (bets.map (derivedEntry keyNow m d0)) [d0]) d
        (List.nodup_cons.mp hnd_dims).2 hds
      rw [hih.1, hih.2,
        derived_update_read_frame keyNow m m d0 bets d "winnings" b.userId
          (by decide) (by decide),
        derived_update_read_frame keyNow m m d0 bets d
          (prevAmountPlayedFeature d) b.userId
          (prevAmountPlayedFeature_ne_winrate d)
          (prevAmountPlayedFeature_ne_avg_bet d),
        derived_update_read_frame keyNow m m d0 bets d
          (prevTotalBetFeature d) b.userId
          (prevTotalBetFeature_ne_winrate d)
          (prevTotalBetFeature_ne_avg_bet d)]
      exact ⟨rfl, rfl⟩

theorem updatePolicyOf_amount_played : updatePolicyOf "amount_played" = .aggregate := rfl

theorem updatePolicyOf_total_bet : updatePolicyOf "total_bet" = .aggregate := rfl

theorem updatePolicyOf_winnings : updatePolicyOf "winnings" = .aggregate := rfl

theorem updatePolicyOf_losses : updatePolicyOf "losses" = .aggregate := rfl

theorem updatePolicyOf_bnb_won : updatePolicyOf "bnb_won" = .aggregate := rfl

theorem updatePolicyOf_bnb_won_even : updatePolicyOf "bnb_won_even" = .aggregate := rfl

theorem applyVals_linear (x : Option ℚ) (v1 v2 v3 v4 v5 v6 : ℚ) :
    applyVals "amount_played" x
        [("amount_played", v1), ("total_bet", v2), ("winnings", v3),
         ("losses", v4), ("bnb_won", v5), ("bnb_won_even", v6)]
      = some (x.getD 0 + v1) ∧
    applyVals "total_bet" x
        [("amount_played", v1), ("total_bet", v2), ("winnings", v3),
         ("losses", v4), ("bnb_won", v5), ("bnb_won_even", v6)]
      = some (x.getD 0 + v2) ∧
    applyVals "winnings" x
        [("amount_played", v1), ("total_bet", v2), ("winnings", v3),
         ("losses", v4), ("bnb_won", v5), ("bnb_won_even", v6)]
      = some (x.getD 0 + v3) ∧
    applyVals "losses" x
        [("amount_played", v1), ("total_bet", v2), ("winnings", v3),
         ("losses", v4), ("bnb_won", v5), ("bnb_won_even", v6)]
      = some (x.getD 0 + v4) ∧
    applyVals "bnb_won" x
        [("amount_played", v1), ("total_bet", v2), ("winnings", v3),
         ("losses", v4), ("bnb_won", v5), ("bnb_won_even", v6)]
      = some (x.getD 0 + v5) ∧
    applyVals "bnb_won_even" x
        [("amount_played", v1), ("total_bet", v2), ("winnings", v3),
         ("losses", v4), ("bnb_won", v5), ("bnb_won_even", v6)]
      = some (x.getD 0 + v6) := by
  refine ⟨?_, ?_, ?_, ?_, ?_, ?_⟩ <;>
    simp [applyVals, updatePolicyOf_amount_played, updatePolicyOf_total_bet,
      updatePolicyOf_winnings, updatePolicyOf_losses, updatePolicyOf_bnb_won,
      updatePolicyOf_bnb_won_even, cellUpdate]

/-- The six aggregate cells of a round participant after the linear update:
each receives its old value plus that bet's contribution. -/
theorem linear_cell (keyNow : String → String) (pos : String) (bp bps : ℚ)
    (bets : List Bet) (b : Bet) (m : Mat) (d : String)
    (hnd : (bets.map Bet.userId).Nodup) (hb : b ∈ bets)
    (hd : d ∈ dimensionNames) :
    matrixUpdate keyNow m (bets.map (linearEntry pos bp bps)) dimensionNames
        d "amount_played" (periodOf keyNow d) b.userId
      = some ((m d "amount_played" (periodOf keyNow d) b.userId).getD 0 + 1) ∧
    matrixUpdate keyNow m (bets.map (linearEntry pos bp bps)) dimensionNames
        d "total_bet" (periodOf keyNow d) b.userId
      = some ((m d "total_bet" (periodOf keyNow d) b.userId).getD 0
          + bigRound0 7 b.amount) ∧
    matrixUpdate keyNow m (bets.map (linearEntry pos bp bps)) dimensionNames
        d "winnings" (periodOf keyNow d) b.userId
      = some ((m d "winnings" (periodOf keyNow d) b.userId).getD 0
          + (if b.position = pos then 1 else 0)) ∧
    matrixUpdate keyNow m (bets.map (linearEntry pos bp bps)) dimensionNames
        d "losses" (periodOf keyNow d) b.userId
      = some ((m d "losses" (periodOf keyNow d) b.userId).getD 0
          + (if b.position ≠ pos then 1 else 0)) ∧
    matrixUpdate keyNow m (bets.map (linearEntry pos bp bps)) dimensionNames
        d "bnb_won" (periodOf keyNow d) b.userId
      = some ((m d "bnb_won" (periodOf keyNow d) b.userId).getD 0
          + (if b.position = pos then
              bigRound0 7 ((if pos = "Bull" then bp else bps) * b.amount
                * (1 - 3 / 100) - b.amount)
            else 0)) ∧
    matrixUpdate keyNow m (bets.map (linearEntry pos bp bps)) dimensionNames
        d "bnb_won_even" (periodOf keyNow d) b.userId
      = some ((m d "bnb_won_even" (periodOf keyNow d) b.userId).getD 0
          + (if b.position = pos then
              bigRound0 7 ((if pos = "Bull" then bp else bps) * 1
                * (1 - 3 / 100) - 1)
            else 0)) := by
  have hnodup : dimensionNames.Nodup := by decide
  have hfst : ((bets.map (linearEntry pos bp bps)).map Prod.fst).Nodup := by
    rw [linearBatch_fst]; exact hnd
  have hmem := List.mem_map_of_mem (linearEntry pos bp bps) hb
  refine ⟨?_, ?_, ?_, ?_, ?_, ?_⟩ <;>
    rw [matrixUpdate_cell_mem keyNow dimensionNames d _ (periodOf keyNow d)
      b.userId hnodup hd rfl _ m hfst (linearEntry pos bp bps b) hmem rfl]
  · exact (applyVals_linear _ _ _ _ _ _ _).1
  · exact (applyVals_linear _ _ _ _ _ _ _).2.1
  · exact (applyVals_linear _ _ _ _ _ _ _).2.2.1
  · exact (applyVals_linear _ _ _ _ _ _ _).2.2.2.1
  · exact (applyVals_linear _ _ _ _ _ _ _).2.2.2.2.1
  · exact (applyVals_linear _ _ _ _ _ _ _).2.2.2.2.2

/-! ### Tick path lemmas -/

theorem fetchRound_position (r : Round) : (fetchRound r).position = r.position := rfl

theorem fetchRound_totalAmount (r : Round) :
    (fetchRound r).totalAmount = r.totalAmount := rfl

theorem fetchRound_bullAmount (r : Round) :
    (fetchRound r).bullAmount = r.bullAmount := rfl

theorem fetchRound_bearAmount (r : Round) :
    (fetchRound r).bearAmount = r.bearAmount := rfl

theorem fetchRound_bets (r : Round) : (fetchRound r).bets = r.bets.take 1000 := by
  simp [fetchRound, fetchRoundSkip, fetchRoundFirst]

theorem populate_noData (kn : String → String) (lat : List ℤ)
    (ro : ℤ → Option Round) (s : St) (p : ℤ)
    (h1 : s.ptr = some p) (h2 : ro p = none) :
    populateLeaderboard false kn lat ro s =
      ([Event.sweep, Event.readPtr, Event.fetchRound p],
       { s with mat := deleteOld kn s.mat }) := by
  simp only [populateLeaderboard, h1, h2, Bool.false_eq_true, if_false]

theorem populate_notReady (kn : String → String) (lat : List ℤ)
    (ro : ℤ → Option Round) (s : St) (p : ℤ) (r0 : Round)
    (h1 : s.ptr = some p) (h2 : ro p = some r0) (h3 : r0.position = none) :
    populateLeaderboard false kn lat ro s =
      ([Event.sweep, Event.readPtr, Event.fetchRound p],
       { s with mat := deleteOld kn s.mat }) := by
  simp only [populateLeaderboard, h1, h2, Bool.false_eq_true, if_false]
  simp only [runRound, fetchRound_position, h3]

theorem populate_divZero (kn : String → String) (lat : List ℤ)
    (ro : ℤ → Option Round) (s : St) (p : ℤ) (r0 : Round) (pos : String)
    (h1 : s.ptr = some p) (h2 : ro p = some r0) (h3 : r0.position = some pos)
    (h4 : r0.bullAmount = 0 ∨ r0.bearAmount = 0) :
    populateLeaderboard false kn lat ro s =
      ([Event.sweep, Event.readPtr, Event.fetchRound p],
       { s with mat := deleteOld kn s.mat }) := by
  have h4' : (fetchRound r0).bullAmount = 0 ∨ (fetchRound r0).bearAmount = 0 := h4
  simp only [populateLeaderboard, h1, h2, Bool.false_eq_true, if_false]
  simp only [runRound, fetchRound_position, h3, if_pos h4']

theorem populate_success (kn : String → String) (lat : List ℤ)
    (ro : ℤ → Option Round) (s : St) (p : ℤ) (r0 : Round) (pos : String)
    (h1 : s.ptr = some p) (h2 : ro p = some r0) (h3 : r0.position = some pos)
    (h4 : ¬r0.bullAmount = 0) (h5 : ¬r0.bearAmount = 0) :
    populateLeaderboard false kn lat ro s =
      ([Event.sweep, Event.readPtr, Event.fetchRound p, Event.setPtr (p + 1),
        Event.update ((r0.bets.take 1000).map (linearEntry pos
          (bigDiv r0.totalAmount r0.bullAmount)
          (bigDiv r0.totalAmount r0.bearAmount))) dimensionNames]
        ++ (runDerived kn (r0.bets.take 1000)
             (matrixUpdate kn (deleteOld kn s.mat)
               ((r0.bets.take 1000).map (linearEntry pos
                 (bigDiv r0.totalAmount r0.bullAmount)
                 (bigDiv r0.totalAmount r0.bearAmount))) dimensionNames)
             dimensionNames).1,
       { ptr := some (p + 1),
         mat := derivedMat kn (r0.bets.take 1000)
           (matrixUpdate kn (deleteOld kn s.mat)
             ((r0.bets.take 1000).map (linearEntry pos
               (bigDiv r0.totalAmount r0.bullAmount)
               (bigDiv r0.totalAmount r0.bearAmount))) dimensionNames)
           dimensionNames }) := by
  have hno : ¬((fetchRound r0).bullAmount = 0 ∨ (fetchRound r0).bearAmount = 0) := by
    intro h
    rcases h with h | h
    · exact h4 h
    · exact h5 h
  simp only [populateLeaderboard, h1, h2, Bool.false_eq_true, if_false]
  simp only [runRound, fetchRound_position, h3, if_neg hno,
    fetchRound_totalAmount, fetchRound_bullAmount, fetchRound_bearAmount,
    fetchRound_bets, runRound, runDerived_mat]
  simp [List.append_assoc]
  exact ⟨h4, h5⟩

theorem populate_noPtr_noSeed (kn : String → String) (lat : List ℤ)
    (ro : ℤ → Option Round) (s : St)
    (h1 : s.ptr = none) (h2 : lat[1]? = none) :
    populateLeaderboard false kn lat ro s =
      ([Event.sweep, Event.readPtr, Event.fetchLatest],
       { s with mat := deleteOld kn s.mat }) := by
  simp only [populateLeaderboard, h1, h2, Bool.false_eq_true, if_false]

theorem runRound_events_prefix (kn : String → String) (p : ℤ) (r : Round)
    (ev : List Event) (s : St) :
    ∃ rest, (runRound kn p r ev s).1 = ev ++ rest := by
  unfold runRound
  cases hpos : r.position with
  | none => exact ⟨[], (List.append_nil ev).symm⟩
  | some pos =>
    dsimp only
    by_cases hz : r.bullAmount = 0 ∨ r.bearAmount = 0
    · rw [if_pos hz]
      exact ⟨[], (List.append_nil ev).symm⟩
    · rw [if_neg hz]
      exact ⟨_, by rw [List.append_assoc]⟩

theorem populate_noPtr_seed (kn : String → String) (lat : List ℤ)
    (ro : ℤ → Option Round) (s : St) (seed : ℤ)
    (h1 : s.ptr = none) (h2 : lat[1]? = some seed) :
    ∃ rest, (populateLeaderboard false kn lat ro s).1 =
      [Event.sweep, Event.readPtr, Event.fetchLatest, Event.setPtr seed,
       Event.fetchRound seed] ++ rest := by
  simp only [populateLeaderboard, h1, h2, Bool.false_eq_true, if_false]
  cases hro : ro seed with
  | none => exact ⟨[], (List.append_nil _).symm⟩
  | some r0 => exact runRound_events_prefix kn seed (fetchRound r0) _ _

theorem foldl_applyEvent_ptr (kn : String → String) :
    ∀ (l : List Event) (s : St),
      (∀ e ∈ l, ∃ batch ds, e = Event.update batch ds) →
      (l.foldl (applyEvent kn) s).ptr = s.ptr := by
  intro l
  induction l with
  | nil => intro s _; rfl
  | cons e t ih =>
    intro s h
    obtain ⟨batch, ds, rfl⟩ := h e (List.mem_cons_self e t)
    rw [List.foldl_cons,
      ih _ (fun e he => h e (List.mem_cons_of_mem _ he))]
    rfl

theorem deleteOld_not_swept (kn : String → String) (m : Mat) (d f p u : String)
    (hf : f ∉ deleteOldFeatures) : deleteOld kn m d f p u = m d f p u := by
  have h : ¬(d ∈ deleteOldDimensions ∧ f ∈ deleteOldFeatures ∧ p ≠ kn d) := by
    tauto
  simp only [deleteOld, if_neg h]

theorem deleteOld_world (kn : String → String) (m : Mat) (f p u : String) :
    deleteOld kn m "world" f p u = m "world" f p u := by
  have h : ¬(("world" : String) ∈ deleteOldDimensions ∧ f ∈ deleteOldFeatures
      ∧ p ≠ kn "world") := by
    intro hcon
    have : ("world" : String) ∉ deleteOldDimensions := by decide
    exact this hcon.1
  simp only [deleteOld, if_neg h]

theorem deleteOld_periodOf (kn : String → String) (m : Mat) (d f u : String) :
    deleteOld kn m d f (periodOf kn d) u = m d f (periodOf kn d) u := by
  by_cases hw : d = "world"
  · subst hw
    exact deleteOld_world kn m f _ u
  · have hp : periodOf kn d = kn d := by simp [periodOf, hw]
    have h : ¬(d ∈ deleteOldDimensions ∧ f ∈ deleteOldFeatures
        ∧ periodOf kn d ≠ kn d) := by
      intro hcon
      exact hcon.2.2 hp
    simp only [deleteOld, if_neg h]

theorem cyclical_facts :
    ∀ d ∈ cyclicalDimensions, d ∈ dimensionNames ∧ d ≠ "world" := by decide

theorem periodOf_cyclical (kn : String → String) (d : String)
    (hd : d ∈ cyclicalDimensions) : periodOf kn d = kn d := by
  simp [periodOf, (cyclical_facts d hd).2]

theorem fetchRound_trunc (r0 : Round) :
    fetchRound { r0 with bets := r0.bets.take fetchRoundFirst } = fetchRound r0 := by
  simp [fetchRound, fetchRoundSkip, List.take_take]

theorem populate_readOnly (kn : String → String) (lat : List ℤ)
    (ro : ℤ → Option Round) (s : St) :
    populateLeaderboard true kn lat ro s = ([], s) := rfl

theorem populate_events_head (kn : String → String) (lat : List ℤ)
    (ro : ℤ → Option Round) (s : St) :
    ∃ rest, (populateLeaderboard false kn lat ro s).1 = Event.sweep :: rest := by
  rcases hs : s.ptr with _ | p
  · rcases hl : lat[1]? with _ | seed
    · rw [populate_noPtr_noSeed kn lat ro s hs hl]
      exact ⟨_, rfl⟩
    · obtain ⟨rest, hr⟩ := populate_noPtr_seed kn lat ro s seed hs hl
      exact ⟨_, by rw [hr]; rfl⟩
  · rcases hro : ro p with _ | r0
    · rw [populate_noData kn lat ro s p hs hro]
      exact ⟨_, rfl⟩
    · rcases hpos : r0.position with _ | pos
      · rw [populate_notReady kn lat ro s p r0 hs hro hpos]
        exact ⟨_, rfl⟩
      · by_cases hz : r0.bullAmount = 0 ∨ r0.bearAmount = 0
        · rw [populate_divZero kn lat ro s p r0 pos hs hro hpos hz]
          exact ⟨_, rfl⟩
        · rw [populate_success kn lat ro s p r0 pos hs hro hpos
            (fun h => hz (Or.inl h)) (fun h => hz (Or.inr h))]
          exact ⟨_, rfl⟩

theorem tick_success_mat (kn : String → String) (lat : List ℤ)
    (ro : ℤ → Option Round) (s : St) (p : ℤ) (r0 : Round) (pos : String)
    (h1 : s.ptr = some p) (h2 : ro p = some r0) (h3 : r0.position = some pos)
    (h4 : ¬r0.bullAmount = 0) (h5 : ¬r0.bearAmount = 0) :
    (populateLeaderboard false kn lat ro s).2.mat
      = derivedMat kn (r0.bets.take 1000)
          (matrixUpdate kn (deleteOld kn s.mat)
            ((r0.bets.take 1000).map (linearEntry pos
              (bigDiv r0.totalAmount r0.bullAmount)
              (bigDiv r0.totalAmount r0.bearAmount))) dimensionNames)
          dimensionNames := by
  rw [populate_success kn lat ro s p r0 pos h1 h2 h3 h4 h5]

/-- Final values of the six aggregate cells for a round participant after a
successful tick: old value (sweep cannot touch a current-period cell) plus
that bet's contribution. -/
theorem tick_linear_cells (kn : String → String) (lat : List ℤ)
    (ro : ℤ → Option Round) (s : St) (p : ℤ) (r0 : Round) (pos : String)
    (b : Bet) (d : String)
    (h1 : s.ptr = some p) (h2 : ro p = some r0) (h3 : r0.position = some pos)
    (h4 : ¬r0.bullAmount = 0) (h5 : ¬r0.bearAmount = 0)
    (hnd : ((r0.bets.take 1000).map Bet.userId).Nodup)
    (hb : b ∈ r0.bets.take 1000) (hd : d ∈ dimensionNames) :
    (populateLeaderboard false kn lat ro s).2.mat d "amount_played"
        (periodOf kn d) b.userId
      = some ((s.mat d "amount_played" (periodOf kn d) b.userId).getD 0 + 1) ∧
    (populateLeaderboard false kn lat ro s).2.mat d "total_bet"
        (periodOf kn d) b.userId
      = some ((s.mat d "total_bet" (periodOf kn d) b.userId).getD 0
          + bigRound0 7 b.amount) ∧
    (populateLeaderboard false kn lat ro s).2.mat d "winnings"
        (periodOf kn d) b.userId
      = some ((s.mat d "winnings" (periodOf kn d) b.userId).getD 0
          + (if b.position = pos then 1 else 0)) ∧
    (populateLeaderboard false kn lat ro s).2.mat d "losses"
        (periodOf kn d) b.userId
      = some ((s.mat d "losses" (periodOf kn d) b.userId).getD 0
          + (if b.position ≠ pos then 1 else 0)) ∧
    (populateLeaderboard false kn lat ro s).2.mat d "bnb_won"
        (periodOf kn d) b.userId
      = some ((s.mat d "bnb_won" (periodOf kn d) b.userId).getD 0
          + (if b.position = pos then
              bigRound0 7 ((if pos = "Bull" then bigDiv r0.totalAmount r0.bullAmount
                else bigDiv r0.totalAmount r0.bearAmount) * b.amount
                * (1 - 3 / 100) - b.amount)
            else 0)) ∧
    (populateLeaderboard false kn lat ro s).2.mat d "bnb_won_even"
        (periodOf kn d) b.userId
      = some ((s.mat d "bnb_won_even" (periodOf kn d) b.userId).getD 0
          + (if b.position = pos then
              bigRound0 7 ((if pos = "Bull" then bigDiv r0.totalAmount r0.bullAmount
                else bigDiv r0.totalAmount r0.bearAmount) * 1
                * (1 - 3 / 100) - 1)
            else 0)) := by
  rw [tick_success_mat kn lat ro s p r0 pos h1 h2 h3 h4 h5]
  have hlin := linear_cell kn pos (bigDiv r0.totalAmount r0.bullAmount)
    (bigDiv r0.totalAmount r0.bearAmount) (r0.bets.take 1000) b
    (deleteOld kn s.mat) d hnd hb hd
  refine ⟨?_, ?_, ?_, ?_, ?_, ?_⟩
  · rw [derivedMat_frame_feature kn (r0.bets.take 1000) d "amount_played"
      (periodOf kn d) b.userId (by decide) (by decide), hlin.1,
      deleteOld_periodOf]
  · rw [derivedMat_frame_feature kn (r0.bets.take 1000) d "total_bet"
      (periodOf kn d) b.userId (by decide) (by decide), hlin.2.1,
      deleteOld_periodOf]
  · rw [derivedMat_frame_feature kn (r0.bets.take 1000) d "winnings"
      (periodOf kn d) b.userId (by decide) (by decide), hlin.2.2.1,
      deleteOld_periodOf]
  · rw [derivedMat_frame_feature kn (r0.bets.take 1000) d "losses"
      (periodOf kn d) b.userId (by decide) (by decide), hlin.2.2.2.1,
      deleteOld_periodOf]
  · rw [derivedMat_frame_feature kn (r0.bets.take 1000) d "bnb_won"
      (periodOf kn d) b.userId (by decide) (by decide), hlin.2.2.2.2.1,
      deleteOld_periodOf]
  · rw [derivedMat_frame_feature kn (r0.bets.take 1000) d "bnb_won_even"
      (periodOf kn d) b.userId (by decide) (by decide), hlin.2.2.2.2.2,
      deleteOld_periodOf]

/-- Final winrate and avg_bet cells for a round participant after a
successful tick, in terms of the pre-tick matrix: the reads happen after the
linear update, and for the world dimension the total-bet and amount-played
reads come from the winnings leaderboard. -/
theorem tick_derived_cells (kn : String → String) (lat : List ℤ)
    (ro : ℤ → Option Round) (s : St) (p : ℤ) (r0 : Round) (pos : String)
    (b : Bet) (d : String)
    (h1 : s.ptr = some p) (h2 : ro p = some r0) (h3 : r0.position = some pos)
    (h4 : ¬r0.bullAmount = 0) (h5 : ¬r0.bearAmount = 0)
    (hnd : ((r0.bets.take 1000).map Bet.userId).Nodup)
    (hb : b ∈ r0.bets.take 1000) (hd : d ∈ dimensionNames) :
    (populateLeaderboard false kn lat ro s).2.mat d "winrate"
        (periodOf kn d) b.userId
      = some (bigRound0 3 (bigDiv
          ((s.mat d "winnings" (periodOf kn d) b.userId).getD 0
            + (if b.position = pos then 1 else 0))
          (orOne ((s.mat d (prevAmountPlayedFeature d)
              (periodOf kn d) b.userId).getD 0
            + (if d = "world" then (if b.position = pos then 1 else 0)
              else 1))))) ∧
    (populateLeaderboard false kn lat ro s).2.mat d "avg_bet"
        (periodOf kn d) b.userId
      = some (bigRound0 3 (bigDiv
          ((s.mat d (prevTotalBetFeature d) (periodOf kn d) b.userId).getD 0
            + (if d = "world" then (if b.position = pos then 1 else 0)
              else bigRound0 7 b.amount))
          (orOne ((s.mat d (prevAmountPlayedFeature d)
              (periodOf kn d) b.userId).getD 0
            + (if d = "world" then (if b.position = pos then 1 else 0)
              else 1))))) := by
  rw [tick_success_mat kn lat ro s p r0 pos h1 h2 h3 h4 h5]
  have hder := derivedMat_cell kn (r0.bets.take 1000) b hb hnd dimensionNames
    (matrixUpdate kn (deleteOld kn s.mat)
      ((r0.bets.take 1000).map (linearEntry pos
        (bigDiv r0.totalAmount r0.bullAmount)
        (bigDiv r0.totalAmount r0.bearAmount))) dimensionNames)
    d (by decide) hd
  have hlin := linear_cell kn pos (bigDiv r0.totalAmount r0.bullAmount)
    (bigDiv r0.totalAmount r0.bearAmount) (r0.bets.take 1000) b
    (deleteOld kn s.mat) d hnd hb hd
  have hW : cellFind kn (matrixUpdate kn (deleteOld kn s.mat)
      ((r0.bets.take 1000).map (linearEntry pos
        (bigDiv r0.totalAmount r0.bullAmount)
        (bigDiv r0.totalAmount r0.bearAmount))) dimensionNames)
      d "winnings" b.userId
      = (s.mat d "winnings" (periodOf kn d) b.userId).getD 0
        + (if b.position = pos then 1 else 0) := by
    unfold cellFind
    rw [hlin.2.2.1, deleteOld_periodOf, Option.getD_some]
  have hAP : cellFind kn (matrixUpdate kn (deleteOld kn s.mat)
      ((r0.bets.take 1000).map (linearEntry pos
        (bigDiv r0.totalAmount r0.bullAmount)
        (bigDiv r0.totalAmount r0.bearAmount))) dimensionNames)
      d (prevAmountPlayedFeature d) b.userId
      = (s.mat d (prevAmountPlayedFeature d) (periodOf kn d) b.userId).getD 0
        + (if d = "world" then (if b.position = pos then 1 else 0) else 1) := by
    by_cases hw : d = "world"
    · subst hw
      have hsel : prevAmountPlayedFeature "world" = "winnings" := rfl
      rw [hsel]
      unfold cellFind
      rw [hlin.2.2.1, deleteOld_periodOf, Option.getD_some]
      simp
    · have hsel : prevAmountPlayedFeature d = "amount_played" := by
        simp [prevAmountPlayedFeature, hw]
      rw [hsel]
      unfold cellFind
      rw [hlin.1, deleteOld_periodOf, Option.getD_some, if_neg hw]
  have hTB : cellFind kn (matrixUpdate kn (deleteOld kn s.mat)
      ((r0.bets.take 1000).map (linearEntry pos
        (bigDiv r0.totalAmount r0.bullAmount)
        (bigDiv r0.totalAmount r0.bearAmount))) dimensionNames)
      d (prevTotalBetFeature d) b.userId
      = (s.mat d (prevTotalBetFeature d) (periodOf kn d) b.userId).getD 0
        + (if d = "world" then (if b.position = pos then 1 else 0)
          else bigRound0 7 b.amount) := by
    by_cases hw : d = "world"
    · subst hw
      have hsel : prevTotalBetFeature "world" = "winnings" := rfl
      rw [hsel]
      unfold cellFind
      rw [hlin.2.2.1, deleteOld_periodOf, Option.getD_some]
      simp
    · have hsel : prevTotalBetFeature d = "total_bet" := by
        simp [prevTotalBetFeature, hw]
      rw [hsel]
      unfold cellFind
      rw [hlin.2.1, deleteOld_periodOf, Option.getD_some, if_neg hw]
  exact ⟨by rw [hder.1, hW, hAP], by rw [hder.2, hTB, hAP]⟩

theorem populate_ptr_round (kn : String → String) (lat : List ℤ)
    (ro : ℤ → Option Round) (s : St) (p : ℤ) (r0 : Round)
    (h1 : s.ptr = some p) (h2 : ro p = some r0) :
    populateLeaderboard false kn lat ro s =
      runRound kn p (fetchRound r0)
        [Event.sweep, Event.readPtr, Event.fetchRound p]
        { s with mat := deleteOld kn s.mat } := by
  simp only [populateLeaderboard, h1, h2, Bool.false_eq_true, if_false]

theorem populate_seed_noData (kn : String → String) (lat : List ℤ)
    (ro : ℤ → Option Round) (s : St) (seed : ℤ)
    (h1 : s.ptr = none) (h2 : lat[1]? = some seed) (h3 : ro seed = none) :
    populateLeaderboard false kn lat ro s =
      ([Event.sweep, Event.readPtr, Event.fetchLatest, Event.setPtr seed,
        Event.fetchRound seed],
       { ptr := some seed, mat := deleteOld kn s.mat }) := by
  simp only [populateLeaderboard, h1, h2, h3, Bool.false_eq_true, if_false]

theorem populate_seed_round (kn : String → String) (lat : List ℤ)
    (ro : ℤ → Option Round) (s : St) (seed : ℤ) (r0 : Round)
    (h1 : s.ptr = none) (h2 : lat[1]? = some seed) (h3 : ro seed = some r0) :
    populateLeaderboard false kn lat ro s =
      runRound kn seed (fetchRound r0)
        [Event.sweep, Event.readPtr, Event.fetchLatest, Event.setPtr seed,
         Event.fetchRound seed]
        { ptr := some seed, mat := deleteOld kn s.mat } := by
  simp only [populateLeaderboard, h1, h2, h3, Bool.false_eq_true, if_false]

theorem runRound_mat_wem (kn : String → String) (p : ℤ) (r : Round)
    (ev : List Event) (s : St) (d q u : String) :
    (runRound kn p r ev s).2.mat d "winnings_even_money" q u
      = s.mat d "winnings_even_money" q u := by
  unfold runRound
  cases hpos : r.position with
  | none => rfl
  | some pos =>
    dsimp only
    by_cases hz : r.bullAmount = 0 ∨ r.bearAmount = 0
    · rw [if_pos hz]
    · rw [if_neg hz]
      dsimp only
      rw [runDerived_mat,
        derivedMat_frame_feature kn r.bets d "winnings_even_money" q u
          (by decide) (by decide),
        matrixUpdate_cell_frame_feature]
      intro e he fv hfv
      obtain ⟨b, _, rfl⟩ := List.mem_map.mp he
      rcases linearEntry_features pos _ _ b fv hfv with h|h|h|h|h|h <;>
        rw [h] <;> decide

theorem runRound_mat_frame_id (kn : String → String) (p : ℤ) (r : Round)
    (ev : List Event) (s : St) (u : String)
    (hu : u ∉ r.bets.map Bet.userId) (d f q : String) :
    (runRound kn p r ev s).2.mat d f q u = s.mat d f q u := by
  unfold runRound
  cases hpos : r.position with
  | none => rfl
  | some pos =>
    dsimp only
    by_cases hz : r.bullAmount = 0 ∨ r.bearAmount = 0
    · rw [if_pos hz]
    · rw [if_neg hz]
      dsimp only
      rw [runDerived_mat, derivedMat_frame_id kn r.bets d f q u hu,
        matrixUpdate_cell_frame_id]
      intro e he hcon
      obtain ⟨b, hbm, rfl⟩ := List.mem_map.mp he
      exact hu (hcon ▸ List.mem_map_of_mem Bet.userId hbm)

/-! ### Claim theorems -/

/-- C8: every active pipeline tick performs the expiry sweep as its very
first operation, before reading the round pointer or fetching round data,
and the sweep clears, for each swept cyclical cell (the participation-count
feature of the four cyclical dimensions), every period table whose key is
not the current period key, leaving the current period table and all other
cells untouched. -/
theorem c8_sweep_first_and_clears_stale (kn : String → String) (lat : List ℤ)
    (ro : ℤ → Option Round) (s : St) :
    (∃ rest, (populateLeaderboard false kn lat ro s).1 = Event.sweep :: rest)
    ∧ (∀ d f p u, d ∈ deleteOldDimensions → f ∈ deleteOldFeatures →
        p ≠ kn d → (applyEvent kn s Event.sweep).mat d f p u = none)
    ∧ (∀ d f u, (applyEvent kn s Event.sweep).mat d f (kn d) u
        = s.mat d f (kn d) u)
    ∧ (∀ d f p u, ¬(d ∈ deleteOldDimensions ∧ f ∈ deleteOldFeatures) →
        (applyEvent kn s Event.sweep).mat d f p u = s.mat d f p u) := by
  refine ⟨populate_events_head kn lat ro s, ?_, ?_, ?_⟩
  · intro d f p u hd hf hp
    have : (applyEvent kn s Event.sweep).mat = deleteOld kn s.mat := rfl
    rw [this]
    simp only [deleteOld]
    exact if_pos ⟨hd, hf, hp⟩
  · intro d f u
    have : (applyEvent kn s Event.sweep).mat = deleteOld kn s.mat := rfl
    rw [this]
    have h : ¬(d ∈ deleteOldDimensions ∧ f ∈ deleteOldFeatures ∧ kn d ≠ kn d) := by
      intro hcon
      exact hcon.2.2 rfl
    simp only [deleteOld, if_neg h]
  · intro d f p u hdf
    have : (applyEvent kn s Event.sweep).mat = deleteOld kn s.mat := rfl
    rw [this]
    have h : ¬(d ∈ deleteOldDimensions ∧ f ∈ deleteOldFeatures ∧ p ≠ kn d) := by
      tauto
    simp only [deleteOld, if_neg h]

/-- C8 witness: concrete instance with a stale best-hour period entry. -/
theorem c8_witness :
    (("best-hour" : String) ∈ deleteOldDimensions
      ∧ ("amount_played" : String) ∈ deleteOldFeatures
      ∧ ("old" : String) ≠ keyNowC "best-hour")
    ∧ (applyEvent keyNowC c5St Event.sweep).mat "best-hour" "amount_played"
        "old" "A" = none
    ∧ (∃ rest,
        (populateLeaderboard false keyNowC [] c5RoundOf c5St).1
          = Event.sweep :: rest) :=
  ⟨⟨by decide, by decide, by decide⟩,
   (c8_sweep_first_and_clears_stale keyNowC [] c5RoundOf c5St).2.1
     "best-hour" "amount_played" "old" "A" (by decide) (by decide) (by decide),
   (c8_sweep_first_and_clears_stale keyNowC [] c5RoundOf c5St).1⟩

/-- C10: the matrix is built with a winnings_even_money cell (aggregate
policy) for every dimension, but no tick ever writes to that feature: every
winnings_even_money table cell is unchanged by every tick, in read-only and
active mode alike and on every code path. -/
theorem c10_winnings_even_money_untouched (readOnly : Bool)
    (kn : String → String) (lat : List ℤ) (ro : ℤ → Option Round) (s : St)
    (d p u : String) :
    ("winnings_even_money", UpdatePolicy.aggregate) ∈ features
    ∧ (populateLeaderboard readOnly kn lat ro s).2.mat
        d "winnings_even_money" p u
      = s.mat d "winnings_even_money" p u := by
  refine ⟨by decide, ?_⟩
  have hdel : deleteOld kn s.mat d "winnings_even_money" p u
      = s.mat d "winnings_even_money" p u :=
    deleteOld_not_swept kn s.mat d _ p u (by decide)
  cases readOnly with
  | true => rfl
  | false =>
    rcases hs : s.ptr with _ | pp
    · rcases hl : lat[1]? with _ | seed
      · rw [populate_noPtr_noSeed kn lat ro s hs hl]
        exact hdel
      · rcases hro : ro seed with _ | r0
        · rw [populate_seed_noData kn lat ro s seed hs hl hro]
          exact hdel
        · rw [populate_seed_round kn lat ro s seed r0 hs hl hro,
            runRound_mat_wem]
          exact hdel
    · rcases hro : ro pp with _ | r0
      · rw [populate_noData kn lat ro s pp hs hro]
        exact hdel
      · rw [populate_ptr_round kn lat ro s pp r0 hs hro, runRound_mat_wem]
        exact hdel

/-- C9: a tick only ever fetches and applies the first 1000 bet records of a
round (`bets(first: 1000, skip: 0)`, no pagination): the tick's outcome is
unchanged if the external source truncates every round to its first 1000
bets, the fetched bet list is that truncation (hence never longer than
1000), and a participant not among the first 1000 bets is completely
untouched beyond the sweep. -/
theorem c9_first_thousand_bets (kn : String → String) (lat : List ℤ)
    (ro : ℤ → Option Round) (s : St) :
    populateLeaderboard false kn lat ro s
      = populateLeaderboard false kn lat
          (fun n => (ro n).map
            (fun r => { r with bets := r.bets.take fetchRoundFirst })) s
    ∧ (∀ r : Round, (fetchRound r).bets = r.bets.take 1000
        ∧ (fetchRound r).bets.length ≤ 1000)
    ∧ (∀ (p : ℤ) (r0 : Round) (u : String), s.ptr = some p → ro p = some r0 →
        u ∉ (r0.bets.take 1000).map Bet.userId →
        ∀ d f q, (populateLeaderboard false kn lat ro s).2.mat d f q u
          = deleteOld kn s.mat d f q u) := by
  refine ⟨?_, ?_, ?_⟩
  · rcases hs : s.ptr with _ | p
    · rcases hl : lat[1]? with _ | seed
      · rw [populate_noPtr_noSeed kn lat ro s hs hl,
          populate_noPtr_noSeed kn lat _ s hs hl]
      · rcases hro : ro seed with _ | r0
        · have hro' : (ro seed).map
              (fun r => { r with bets := r.bets.take fetchRoundFirst }) = none := by
            rw [hro]; rfl
          rw [populate_seed_noData kn lat ro s seed hs hl hro,
            populate_seed_noData kn lat _ s seed hs hl hro']
        · have hro' : (ro seed).map
              (fun r => { r with bets := r.bets.take fetchRoundFirst })
              = some { r0 with bets := r0.bets.take fetchRoundFirst } := by
            rw [hro]; rfl
          rw [populate_seed_round kn lat ro s seed r0 hs hl hro,
            populate_seed_round kn lat _ s seed _ hs hl hro', fetchRound_trunc]
    · rcases hro : ro p with _ | r0
      · have hro' : (ro p).map
            (fun r => { r with bets := r.bets.take fetchRoundFirst }) = none := by
          rw [hro]; rfl
        rw [populate_noData kn lat ro s p hs hro,
          populate_noData kn lat _ s p hs hro']
      · have hro' : (ro p).map
            (fun r => { r with bets := r.bets.take fetchRoundFirst })
            = some { r0 with bets := r0.bets.take fetchRoundFirst } := by
          rw [hro]; rfl
        rw [populate_ptr_round kn lat ro s p r0 hs hro,
          populate_ptr_round kn lat _ s p _ hs hro', fetchRound_trunc]
  · intro r
    refine ⟨fetchRound_bets r, ?_⟩
    rw [fetchRound_bets r, List.length_take]
    exact min_le_left _ _
  · intro p r0 u hp hro hu d f q
    have hu' : u ∉ (fetchRound r0).bets.map Bet.userId := by
      rw [fetchRound_bets]; exact hu
    rw [populate_ptr_round kn lat ro s p r0 hp hro,
      runRound_mat_frame_id kn p (fetchRound r0) _ _ u hu' d f q]

/-- C9 witness: a participant Z absent from the round is untouched beyond
the sweep. -/
theorem c9_witness :
    c6St.ptr = some 5 ∧ c6RoundOf 5 = some c6Round
    ∧ ("Z" : String) ∉ (c6Round.bets.take 1000).map Bet.userId
    ∧ (∀ d f q,
        (populateLeaderboard false keyNowC [] c6RoundOf c6St).2.mat d f q "Z"
          = deleteOld keyNowC c6St.mat d f q "Z") :=
  ⟨rfl, by decide, by decide,
   fun d f q => (c9_first_thousand_bets keyNowC [] c6RoundOf c6St).2.2
     5 c6Round "Z" rfl (by decide) (by decide) d f q⟩

/-- C5 amended: a tick whose fetched round is unresolved aborts after the
sweep: the pointer is unchanged (so the same round is retried next tick) and
the matrix equals the swept pre-tick matrix, the unconditional expiry sweep
being the only mutation of the tick. -/
theorem c5_not_ready_aborts (kn : String → String) (lat : List ℤ)
    (ro : ℤ → Option Round) (s : St) (p : ℤ) (r0 : Round)
    (h1 : s.ptr = some p) (h2 : ro p = some r0) (h3 : r0.position = none) :
    (populateLeaderboard false kn lat ro s).1
        = [Event.sweep, Event.readPtr, Event.fetchRound p]
    ∧ (populateLeaderboard false kn lat ro s).2.ptr = s.ptr
    ∧ (populateLeaderboard false kn lat ro s).2.mat = deleteOld kn s.mat := by
  rw [populate_notReady kn lat ro s p r0 h1 h2 h3]
  exact ⟨rfl, rfl, rfl⟩

/-- C5 counterexample: with a stale best-hour period entry in the matrix, a
not-ready tick still clears that cell (the sweep runs first), refuting
"aborts without mutating any ranking-matrix cell"; the pointer is unchanged. -/
theorem c5_counterexample :
    c5Round.position = none
    ∧ c5St.mat "best-hour" "amount_played" "old" "A" = some 3
    ∧ c5Run.2.mat "best-hour" "amount_played" "old" "A" = none
    ∧ c5Run.2.ptr = some 5 :=
  ⟨rfl, by decide, by decide, by decide⟩

/-- C5 witness: concrete not-ready tick. -/
theorem c5_witness :
    c5St.ptr = some 5 ∧ c5RoundOf 5 = some c5Round
    ∧ c5Round.position = none
    ∧ (populateLeaderboard false keyNowC [] c5RoundOf c5St).1
        = [Event.sweep, Event.readPtr, Event.fetchRound 5]
    ∧ (populateLeaderboard false keyNowC [] c5RoundOf c5St).2.ptr = c5St.ptr
    ∧ (populateLeaderboard false keyNowC [] c5RoundOf c5St).2.mat
        = deleteOld keyNowC c5St.mat := by
  have h := c5_not_ready_aborts keyNowC [] c5RoundOf c5St 5 c5Round rfl
    (by decide) rfl
  exact ⟨rfl, by decide, rfl, h.1, h.2.1, h.2.2⟩

/-- C7 amended: on a tick with no persisted pointer, the pipeline queries the
latest finalized rounds, and exactly when a second-most-recent entry exists
it persists that entry as the pointer and fetches that round this tick;
with fewer than two rounds (in particular also with exactly one) the tick
fails: nothing is persisted and no round is fetched. -/
theorem c7_bootstrap_second_entry (kn : String → String) (lat : List ℤ)
    (ro : ℤ → Option Round) (s : St) (h1 : s.ptr = none) :
    (∀ seed, lat[1]? = some seed →
      ∃ rest, (populateLeaderboard false kn lat ro s).1
          = [Event.sweep, Event.readPtr, Event.fetchLatest, Event.setPtr seed,
             Event.fetchRound seed] ++ rest)
    ∧ (lat[1]? = none →
        (populateLeaderboard false kn lat ro s).1
            = [Event.sweep, Event.readPtr, Event.fetchLatest]
          ∧ (populateLeaderboard false kn lat ro s).2.ptr = none) := by
  constructor
  · intro seed h2
    exact populate_noPtr_seed kn lat ro s seed h1 h2
  · intro h2
    rw [populate_noPtr_noSeed kn lat ro s h1 h2]
    exact ⟨rfl, h1⟩

/-- C7 counterexample: with exactly one finalized round available the tick
fails and persists nothing, refuting "fails if and only if no rounds are
available at all". -/
theorem c7_counterexample :
    ([9] : List ℤ) ≠ []
    ∧ c7Run.1 = [Event.sweep, Event.readPtr, Event.fetchLatest]
    ∧ c7Run.2.ptr = none :=
  ⟨by decide, by decide, by decide⟩

/-- C7 witness: with two rounds available the second-most-recent is seeded
and fetched. -/
theorem c7_witness :
    c7St.ptr = none
    ∧ (([9, 8] : List ℤ)[1]? = some 8)
    ∧ (∃ rest, (populateLeaderboard false keyNowC [9, 8] (fun _ => none) c7St).1
        = [Event.sweep, Event.readPtr, Event.fetchLatest, Event.setPtr 8,
           Event.fetchRound 8] ++ rest) :=
  ⟨rfl, by decide,
   (c7_bootstrap_second_entry keyNowC [9, 8] (fun _ => none) c7St rfl).1 8
     (by decide)⟩

/-- C3 amended: for a tick with persisted pointer P whose round P is fetched,
resolved, and whose payout-ratio computations succeed (both side amounts are
nonzero), the tick persists P+1 before any metric update: the event trace is
sweep, pointer read, round fetch, then `setPtr (P+1)` followed only by
matrix-update events, so every continuation past the pointer advance (in
particular a failure in metric application) leaves the persisted pointer at
P+1, as does the complete tick. -/
theorem c3_optimistic_advance (kn : String → String) (lat : List ℤ)
    (ro : ℤ → Option Round) (s : St) (p : ℤ) (r0 : Round) (pos : String)
    (h1 : s.ptr = some p) (h2 : ro p = some r0) (h3 : r0.position = some pos)
    (h4 : ¬r0.bullAmount = 0) (h5 : ¬r0.bearAmount = 0) :
    ∃ post,
      (populateLeaderboard false kn lat ro s).1
          = [Event.sweep, Event.readPtr, Event.fetchRound p,
             Event.setPtr (p + 1)] ++ post
      ∧ (∀ e ∈ post, ∃ batch ds, e = Event.update batch ds)
      ∧ (∀ n, 4 ≤ n →
          (((populateLeaderboard false kn lat ro s).1.take n).foldl
            (applyEvent kn) s).ptr = some (p + 1))
      ∧ (populateLeaderboard false kn lat ro s).2.ptr = some (p + 1) := by
  rw [populate_success kn lat ro s p r0 pos h1 h2 h3 h4 h5]
  refine ⟨Event.update ((r0.bets.take 1000).map (linearEntry pos
      (bigDiv r0.totalAmount r0.bullAmount)
      (bigDiv r0.totalAmount r0.bearAmount))) dimensionNames
      :: (runDerived kn (r0.bets.take 1000)
           (matrixUpdate kn (deleteOld kn s.mat)
             ((r0.bets.take 1000).map (linearEntry pos
               (bigDiv r0.totalAmount r0.bullAmount)
               (bigDiv r0.totalAmount r0.bearAmount))) dimensionNames)
           dimensionNames).1, rfl, ?_, ?_, rfl⟩
  all_goals
    have hpost : ∀ e ∈ Event.update ((r0.bets.take 1000).map (linearEntry pos
        (bigDiv r0.totalAmount r0.bullAmount)
        (bigDiv r0.totalAmount r0.bearAmount))) dimensionNames
        :: (runDerived kn (r0.bets.take 1000)
             (matrixUpdate kn (deleteOld kn s.mat)
               ((r0.bets.take 1000).map (linearEntry pos
                 (bigDiv r0.totalAmount r0.bullAmount)
                 (bigDiv r0.totalAmount r0.bearAmount))) dimensionNames)
             dimensionNames).1,
        ∃ batch ds, e = Event.update batch ds := by
      intro e he
      rcases List.mem_cons.mp he with h | h
      · exact ⟨_, _, h⟩
      · exact runDerived_events_update kn (r0.bets.take 1000) dimensionNames
          [] _ (fun e' h' => absurd h' (List.not_mem_nil e')) e h
  · exact hpost
  · intro n hn
    have hsplit : ([Event.sweep, Event.readPtr, Event.fetchRound p,
        Event.setPtr (p + 1),
        Event.update ((r0.bets.take 1000).map (linearEntry pos
          (bigDiv r0.totalAmount r0.bullAmount)
          (bigDiv r0.totalAmount r0.bearAmount))) dimensionNames]
        ++ (runDerived kn (r0.bets.take 1000)
             (matrixUpdate kn (deleteOld kn s.mat)
               ((r0.bets.take 1000).map (linearEntry pos
                 (bigDiv r0.totalAmount r0.bullAmount)
                 (bigDiv r0.totalAmount r0.bearAmount))) dimensionNames)
             dimensionNames).1)
        = [Event.sweep, Event.readPtr, Event.fetchRound p,
           Event.setPtr (p + 1)]
          ++ (Event.update ((r0.bets.take 1000).map (linearEntry pos
               (bigDiv r0.totalAmount r0.bullAmount)
               (bigDiv r0.totalAmount r0.bearAmount))) dimensionNames
             :: (runDerived kn (r0.bets.take 1000)
                  (matrixUpdate kn (deleteOld kn s.mat)
                    ((r0.bets.take 1000).map (linearEntry pos
                      (bigDiv r0.totalAmount r0.bullAmount)
                      (bigDiv r0.totalAmount r0.bearAmount))) dimensionNames)
                  dimensionNames).1) := rfl
    rw [hsplit, List.take_append_eq_append_take,
      List.take_of_length_le (by simpa using hn), List.foldl_append,
      foldl_applyEvent_ptr kn _ _
        (fun e he => hpost e (List.take_subset _ _ he))]
    rfl

/-- C3 counterexample: a resolved round with zero bull amount passes the
readiness check but the payout division (computed before the optimistic
advance) throws, so the tick ends with the pointer still at P, refuting the
claim that a ready round always yields pointer P+1. -/
theorem c3_counterexample :
    c6St.ptr = some 5
    ∧ c3RoundOf 5 = some c3Round
    ∧ c3Round.position = some "Bull"
    ∧ c3Run.2.ptr = some 5
    ∧ c3Run.2.ptr ≠ some (5 + 1) :=
  ⟨rfl, by decide, rfl, by decide, by decide⟩

/-- C3 witness: concrete successful tick advancing the pointer from 5 to 6
before the metric updates. -/
theorem c3_witness :
    c6St.ptr = some 5 ∧ c6RoundOf 5 = some c6Round
    ∧ c6Round.position = some "Bull"
    ∧ ¬c6Round.bullAmount = 0 ∧ ¬c6Round.bearAmount = 0
    ∧ (∃ post,
        (populateLeaderboard false keyNowC [] c6RoundOf c6St).1
            = [Event.sweep, Event.readPtr, Event.fetchRound 5,
               Event.setPtr (5 + 1)] ++ post
        ∧ (∀ e ∈ post, ∃ batch ds, e = Event.update batch ds)
        ∧ (∀ n, 4 ≤ n →
            (((populateLeaderboard false keyNowC [] c6RoundOf c6St).1.take
              n).foldl (applyEvent keyNowC) c6St).ptr = some (5 + 1))
        ∧ (populateLeaderboard false keyNowC [] c6RoundOf c6St).2.ptr
            = some (5 + 1)) :=
  ⟨rfl, by decide, rfl, by decide, by decide,
   c3_optimistic_advance keyNowC [] c6RoundOf c6St 5 c6Round "Bull" rfl
     (by decide) rfl (by decide) (by decide)⟩

/-- C1 amended: for every cyclical dimension, the replace-policy derived
metrics are computed from the participant's cumulative winnings, total_bet
and amount_played scores as they are AFTER this round's aggregate updates
for that dimension were applied in the same tick (the linear update is
awaited before the derived reads): a participant with winnings 4 and
amount_played 4 who wins their 5th play gets winrate 5/5, not 4/4.  (For the
world dimension the reads are additionally affected by the defect recorded
under C2.) -/
theorem c1_derived_reads_post_round (kn : String → String) (lat : List ℤ)
    (ro : ℤ → Option Round) (s : St) (p : ℤ) (r0 : Round) (pos : String)
    (b : Bet) (d : String)
    (h1 : s.ptr = some p) (h2 : ro p = some r0) (h3 : r0.position = some pos)
    (h4 : ¬r0.bullAmount = 0) (h5 : ¬r0.bearAmount = 0)
    (hnd : ((r0.bets.take 1000).map Bet.userId).Nodup)
    (hb : b ∈ r0.bets.take 1000) (hd : d ∈ cyclicalDimensions) :
    (populateLeaderboard false kn lat ro s).2.mat d "winrate" (kn d) b.userId
      = some (bigRound0 3 (bigDiv
          ((s.mat d "winnings" (kn d) b.userId).getD 0
            + (if b.position = pos then 1 else 0))
          (orOne ((s.mat d "amount_played" (kn d) b.userId).getD 0 + 1))))
    ∧ (populateLeaderboard false kn lat ro s).2.mat d "avg_bet" (kn d) b.userId
      = some (bigRound0 3 (bigDiv
          ((s.mat d "total_bet" (kn d) b.userId).getD 0
            + bigRound0 7 b.amount)
          (orOne ((s.mat d "amount_played" (kn d) b.userId).getD 0 + 1)))) := by
  obtain ⟨hdn, hw⟩ := cyclical_facts d hd
  have h := tick_derived_cells kn lat ro s p r0 pos b d h1 h2 h3 h4 h5 hnd hb hdn
  rw [periodOf_cyclical kn d hd] at h
  simp only [prevAmountPlayedFeature, prevTotalBetFeature, if_neg hw] at h
  exact h

/-- C1 counterexample: participant A enters the round with winnings 3 and
amount_played 4 on best-hour and wins; the claim as stated predicts winrate
3/4 computed from the pre-round scores, but the tick stores 4/5, computed
from the post-update scores. -/
theorem c1_counterexample :
    c1St.mat "best-hour" "winnings" "now" "A" = some 3
    ∧ c1St.mat "best-hour" "amount_played" "now" "A" = some 4
    ∧ bigRound0 3 (bigDiv 3 (orOne 4)) = 3 / 4
    ∧ c1Run.2.mat "best-hour" "winrate" "now" "A" = some (4 / 5)
    ∧ (4 : ℚ) / 5 ≠ 3 / 4 := by
  refine ⟨by decide, by decide, ?_, ?_, by norm_num⟩
  · norm_num [bigRound0, bigDiv, bigRound1, orOne, truncInt, halfAwayInt,
      Int.tdiv]
  · have h := (tick_derived_cells keyNowC [] c1RoundOf c1St 5
      c1Round "Bull" c1Bet "best-hour" rfl (by decide) rfl (by decide)
      (by decide) (by decide) (by decide) (by decide)).1
    have h2 : c1Run.2.mat "best-hour" "winrate" "now" "A"
        = some (bigRound0 3 (bigDiv
            ((c1St.mat "best-hour" "winnings" "now" "A").getD 0
              + (if c1Bet.position = "Bull" then 1 else 0))
            (orOne ((c1St.mat "best-hour" "amount_played" "now" "A").getD 0
              + 1)))) := h
    rw [h2]
    have e1 : (c1St.mat "best-hour" "winnings" "now" "A").getD 0 = (3 : ℚ) := by
      decide
    have e2 : (c1St.mat "best-hour" "amount_played" "now" "A").getD 0
        = (4 : ℚ) := by decide
    have e3 : (if c1Bet.position = "Bull" then (1 : ℚ) else 0) = 1 := by decide
    rw [e1, e2, e3]
    norm_num [bigRound0, bigDiv, bigRound1, orOne, truncInt, halfAwayInt,
      Int.tdiv]

/-- C1 witness: concrete tick instantiating the amended theorem. -/
theorem c1_witness :
    c1St.ptr = some 5 ∧ c1RoundOf 5 = some c1Round
    ∧ c1Round.position = some "Bull"
    ∧ ¬c1Round.bullAmount = 0 ∧ ¬c1Round.bearAmount = 0
    ∧ ((c1Round.bets.take 1000).map Bet.userId).Nodup
    ∧ c1Bet ∈ c1Round.bets.take 1000
    ∧ ("best-hour" : String) ∈ cyclicalDimensions
    ∧ ((populateLeaderboard false keyNowC [] c1RoundOf c1St).2.mat
          "best-hour" "winrate" (keyNowC "best-hour") c1Bet.userId
        = some (bigRound0 3 (bigDiv
            ((c1St.mat "best-hour" "winnings" (keyNowC "best-hour")
                c1Bet.userId).getD 0
              + (if c1Bet.position = "Bull" then 1 else 0))
            (orOne ((c1St.mat "best-hour" "amount_played"
                (keyNowC "best-hour") c1Bet.userId).getD 0 + 1))))
      ∧ (populateLeaderboard false keyNowC [] c1RoundOf c1St).2.mat
          "best-hour" "avg_bet" (keyNowC "best-hour") c1Bet.userId
        = some (bigRound0 3 (bigDiv
            ((c1St.mat "best-hour" "total_bet" (keyNowC "best-hour")
                c1Bet.userId).getD 0
              + bigRound0 7 c1Bet.amount)
            (orOne ((c1St.mat "best-hour" "amount_played"
                (keyNowC "best-hour") c1Bet.userId).getD 0 + 1))))) :=
  ⟨rfl, by decide, rfl, by decide, by decide, by decide, by decide, by decide,
   c1_derived_reads_post_round keyNowC [] c1RoundOf c1St 5 c1Round "Bull"
     c1Bet "best-hour" rfl (by decide) rfl (by decide) (by decide)
     (by decide) (by decide) (by decide)⟩

/-- C2 (code defect): for the world dimension the source reads the winnings
leaderboard for all three previous values (lines 322-340 use `lbWinnings`
where `lbTotalBet` and `lbAmountPlayed` were built), so with winnings 2,
total_bet 50, amount_played 10 and a lost 5 BNB bet the stored world
avg_bet and winrate are both winnings/winnings = 1, although the matrix
itself holds total_bet 55 and amount_played 11, whose ratio (truncated to 3
decimals) is 5 however the read is timed. -/
theorem c2_world_reads_winnings_for_all :
    c2Run.2.mat "world" "total_bet" "world" "A" = some 55
    ∧ c2Run.2.mat "world" "amount_played" "world" "A" = some 11
    ∧ c2Run.2.mat "world" "winnings" "world" "A" = some 2
    ∧ c2Run.2.mat "world" "avg_bet" "world" "A" = some 1
    ∧ c2Run.2.mat "world" "winrate" "world" "A" = some 1
    ∧ bigRound0 3 (bigDiv 55 (orOne 11)) = 5
    ∧ bigRound0 3 (bigDiv 50 (orOne 10)) = 5
    ∧ (1 : ℚ) ≠ 5 := by
  have hlin := tick_linear_cells keyNowC [] c2RoundOf c2St 5 c2Round "Bear"
    c2Bet "world" rfl (by decide) rfl (by decide) (by decide) (by decide)
    (by decide) (by decide)
  have hder := tick_derived_cells keyNowC [] c2RoundOf c2St 5 c2Round "Bear"
    c2Bet "world" rfl (by decide) rfl (by decide) (by decide) (by decide)
    (by decide) (by decide)
  have e1 : (c2St.mat "world" "total_bet" "world" "A").getD 0 = (50 : ℚ) := by
    decide
  have e2 : (c2St.mat "world" "amount_played" "world" "A").getD 0
      = (10 : ℚ) := by decide
  have e3 : (c2St.mat "world" "winnings" "world" "A").getD 0 = (2 : ℚ) := by
    decide
  have e4 : (c2St.mat "world" (prevTotalBetFeature "world") "world" "A").getD 0
      = (2 : ℚ) := by decide
  have e5 : (c2St.mat "world" (prevAmountPlayedFeature "world") "world"
      "A").getD 0 = (2 : ℚ) := by decide
  have e6 : (if c2Bet.position = "Bear" then (1 : ℚ) else 0) = 0 := by decide
  have e7 : c2Bet.amount = (5 : ℚ) := rfl
  refine ⟨?_, ?_, ?_, ?_, ?_, ?_, ?_, by norm_num⟩
  · have h : c2Run.2.mat "world" "total_bet" "world" "A"
        = some ((c2St.mat "world" "total_bet" "world" "A").getD 0
            + bigRound0 7 c2Bet.amount) := hlin.2.1
    rw [h, e1, e7]
    norm_num [bigRound0, truncInt, Int.tdiv]
  · have h : c2Run.2.mat "world" "amount_played" "world" "A"
        = some ((c2St.mat "world" "amount_played" "world" "A").getD 0 + 1) :=
      hlin.1
    rw [h, e2]
    norm_num
  · have h : c2Run.2.mat "world" "winnings" "world" "A"
        = some ((c2St.mat "world" "winnings" "world" "A").getD 0
            + (if c2Bet.position = "Bear" then 1 else 0)) := hlin.2.2.1
    rw [h, e3, e6]
    norm_num
  · have h : c2Run.2.mat "world" "avg_bet" "world" "A"
        = some (bigRound0 3 (bigDiv
            ((c2St.mat "world" (prevTotalBetFeature "world") "world" "A").getD 0
              + (if ("world" : String) = "world" then
                  (if c2Bet.position = "Bear" then 1 else 0) else
                  bigRound0 7 c2Bet.amount))
            (orOne ((c2St.mat "world" (prevAmountPlayedFeature "world")
                "world" "A").getD 0
              + (if ("world" : String) = "world" then
                  (if c2Bet.position = "Bear" then 1 else 0) else 1))))) :=
      hder.2
    rw [h, e4, e5, if_pos rfl, if_pos rfl, e6]
    norm_num [bigRound0, bigDiv, bigRound1, orOne, truncInt, halfAwayInt,
      Int.tdiv]
  · have h : c2Run.2.mat "world" "winrate" "world" "A"
        = some (bigRound0 3 (bigDiv
            ((c2St.mat "world" "winnings" "world" "A").getD 0
              + (if c2Bet.position = "Bear" then 1 else 0))
            (orOne ((c2St.mat "world" (prevAmountPlayedFeature "world")
                "world" "A").getD 0
              + (if ("world" : String) = "world" then
                  (if c2Bet.position = "Bear" then 1 else 0) else 1))))) :=
      hder.1
    rw [h, e3, e5, if_pos rfl, e6]
    norm_num [bigRound0, bigDiv, bigRound1, orOne, truncInt, halfAwayInt,
      Int.tdiv]
  · norm_num [bigRound0, bigDiv, bigRound1, orOne, truncInt, halfAwayInt,
      Int.tdiv]
  · norm_num [bigRound0, bigDiv, bigRound1, orOne, truncInt, halfAwayInt,
      Int.tdiv]

/-! ### Rounding characterization lemmas (for C4) -/

theorem truncInt_eq_floor (q : ℚ) (h : 0 ≤ q) : truncInt q = ⌊q⌋ := by
  unfold truncInt
  rw [Int.tdiv_eq_ediv (Rat.num_nonneg.mpr h) (Int.natCast_nonneg q.den),
    Rat.floor_def]

theorem truncInt_neg (q : ℚ) : truncInt (-q) = -truncInt q := by
  unfold truncInt
  rw [Rat.neg_num, Rat.neg_den, Int.neg_tdiv]

theorem halfAwayInt_nonneg (q : ℚ) (h : 0 ≤ q) : halfAwayInt q = ⌊q + 1 / 2⌋ := by
  unfold halfAwayInt
  rw [if_pos (Rat.num_nonneg.mpr h)]
  have hn : (0 : ℤ) ≤ q.num := Rat.num_nonneg.mpr h
  have hdd : (0 : ℤ) ≤ (q.den : ℤ) := Int.natCast_nonneg _
  have h2 : (0 : ℤ) ≤ 2 * q.num + q.den := by linarith
  have h3 : (0 : ℤ) ≤ 2 * (q.den : ℤ) := by linarith
  rw [Int.tdiv_eq_ediv h2 h3]
  have key := Rat.floor_intCast_div_natCast (2 * q.num + q.den) (2 * q.den)
  have harg : ((2 * q.num + (q.den : ℤ) : ℤ) : ℚ) / ((2 * q.den : ℕ) : ℚ)
      = q + 1 / 2 := by
    have hd : ((q.den : ℚ)) ≠ 0 := Nat.cast_ne_zero.mpr q.den_nz
    have hd2 : ((2 * q.den : ℕ) : ℚ) ≠ 0 := by
      push_cast
      intro hcon
      exact hd (by linarith)
    rw [div_eq_iff hd2]
    have hqd := Rat.mul_den_eq_num q
    push_cast
    nlinarith [hqd]
  rw [harg] at key
  push_cast at key
  exact key.symm

theorem halfAwayInt_neg_of_neg (q : ℚ) (h : q < 0) :
    halfAwayInt q = -halfAwayInt (-q) := by
  have hn : ¬(0 : ℤ) ≤ q.num := by
    rw [Rat.num_nonneg]
    exact not_le.mpr h
  have hn2 : (0 : ℤ) ≤ (-q).num := by
    rw [Rat.num_nonneg]
    linarith
  rw [halfAwayInt, halfAwayInt, if_neg hn, if_pos hn2, Rat.neg_num, Rat.neg_den]

theorem halfAwayInt_abs (y : ℚ) : |(halfAwayInt y : ℚ) - y| ≤ 1 / 2 := by
  rcases le_or_lt 0 y with h | h
  · rw [halfAwayInt_nonneg y h]
    have h1 := Int.floor_le (y + 1 / 2)
    have h2 := Int.lt_floor_add_one (y + 1 / 2)
    rw [abs_le]
    constructor <;> linarith
  · rw [halfAwayInt_neg_of_neg y h, halfAwayInt_nonneg (-y) (by linarith)]
    have h1 := Int.floor_le (-y + 1 / 2)
    have h2 := Int.lt_floor_add_one (-y + 1 / 2)
    rw [abs_le]
    push_cast
    constructor <;> linarith

theorem bigRound0_le (dp : ℕ) (q : ℚ) (h : 0 ≤ q) : bigRound0 dp q ≤ q := by
  unfold bigRound0
  have hx : (0 : ℚ) ≤ q * 10 ^ dp := by positivity
  rw [truncInt_eq_floor _ hx]
  have hp : (0 : ℚ) < 10 ^ dp := by positivity
  rw [div_le_iff₀ hp]
  exact Int.floor_le _

theorem bigRound0_gt (dp : ℕ) (q : ℚ) (h : 0 ≤ q) :
    q - bigRound0 dp q < 1 / 10 ^ dp := by
  unfold bigRound0
  have hx : (0 : ℚ) ≤ q * 10 ^ dp := by positivity
  rw [truncInt_eq_floor _ hx]
  have hp : (0 : ℚ) < 10 ^ dp := by positivity
  have h2 := Int.lt_floor_add_one (q * 10 ^ dp)
  rw [sub_lt_iff_lt_add, div_add_div_same, lt_div_iff₀ hp]
  linarith

theorem bigRound0_den (dp : ℕ) (q : ℚ) : (bigRound0 dp q * 10 ^ dp).den = 1 := by
  unfold bigRound0
  have hp : ((10 : ℚ) ^ dp) ≠ 0 := by positivity
  rw [div_mul_cancel₀ _ hp]
  exact Rat.den_intCast _

theorem bigRound0_neg (dp : ℕ) (q : ℚ) : bigRound0 dp (-q) = -bigRound0 dp q := by
  unfold bigRound0
  rw [neg_mul, truncInt_neg]
  push_cast
  ring

theorem bigDiv_err (a b : ℚ) : |bigDiv a b - a / b| ≤ 1 / (2 * 10 ^ 20) := by
  unfold bigDiv bigRound1
  have hp : (0 : ℚ) < 10 ^ 20 := by positivity
  have habs := halfAwayInt_abs (a / b * 10 ^ 20)
  have key : (halfAwayInt (a / b * 10 ^ 20) : ℚ) / 10 ^ 20 - a / b
      = ((halfAwayInt (a / b * 10 ^ 20) : ℚ) - a / b * 10 ^ 20) / 10 ^ 20 := by
    field_simp
    ring
  rw [key, abs_div, abs_of_pos hp, div_le_iff₀ hp]
  calc |(halfAwayInt (a / b * 10 ^ 20) : ℚ) - a / b * 10 ^ 20| ≤ 1 / 2 := habs
    _ = 1 / (2 * 10 ^ 20) * 10 ^ 20 := by ring

theorem bigRound1_den (dp : ℕ) (q : ℚ) : (bigRound1 dp q * 10 ^ dp).den = 1 := by
  unfold bigRound1
  have hp : ((10 : ℚ) ^ dp) ≠ 0 := by positivity
  rw [div_mul_cancel₀ _ hp]
  exact Rat.den_intCast _

/-- C4 amended: final metric values are rounded to 7 decimal places
(monetary) and 3 decimal places (ratios) by rounding TOWARD zero (big.js
mode 0, truncation), not half away from zero: for nonnegative q the stored
value is the largest multiple of 10⁻ᵈᵖ not exceeding q, and negation is
mirrored.  Intermediate arithmetic is exact decimal except big.js division,
which rounds to 20 decimal places (half away from zero), within 10⁻²⁰/2 of
the exact quotient.  The tick stores total_bet = bigRound0 7 amount. -/
theorem c4_rounding_truncation :
    (∀ q : ℚ, 0 ≤ q → bigRound0 7 q ≤ q ∧ q - bigRound0 7 q < 1 / 10 ^ 7
        ∧ (bigRound0 7 q * 10 ^ 7).den = 1)
    ∧ (∀ q : ℚ, 0 ≤ q → bigRound0 3 q ≤ q ∧ q - bigRound0 3 q < 1 / 10 ^ 3
        ∧ (bigRound0 3 q * 10 ^ 3).den = 1)
    ∧ (∀ q : ℚ, bigRound0 7 (-q) = -bigRound0 7 q)
    ∧ (∀ a b : ℚ, |bigDiv a b - a / b| ≤ 1 / (2 * 10 ^ 20)
        ∧ (bigDiv a b * 10 ^ 20).den = 1)
    ∧ c4Run.2.mat "world" "total_bet" "world" "A"
        = some (bigRound0 7 (3 / 20000000)) := by
  refine ⟨fun q h => ⟨bigRound0_le 7 q h, bigRound0_gt 7 q h, bigRound0_den 7 q⟩,
    fun q h => ⟨bigRound0_le 3 q h, bigRound0_gt 3 q h, bigRound0_den 3 q⟩,
    bigRound0_neg 7,
    fun a b => ⟨bigDiv_err a b, bigRound1_den 20 (a / b)⟩, ?_⟩
  have hlin := tick_linear_cells keyNowC [] c4RoundOf c6St 5 c4Round "Bull"
    c4Bet "world" rfl rfl rfl (by decide) (by decide) (by decide)
    (List.mem_cons_self c4Bet []) (by decide)
  have h : c4Run.2.mat "world" "total_bet" "world" "A"
      = some ((c6St.mat "world" "total_bet" "world" "A").getD 0
          + bigRound0 7 c4Bet.amount) := hlin.2.1
  have e : (c6St.mat "world" "total_bet" "world" "A").getD 0 = (0 : ℚ) := by
    decide
  have e2 : c4Bet.amount = (3 / 20000000 : ℚ) := rfl
  rw [h, e, e2, zero_add]

/-- C4 counterexample: a bet amount of 1.5·10⁻⁷ is stored as total_bet
10⁻⁷ (truncation toward zero), while round-half-away-from-zero as the claim
states would give 2·10⁻⁷. -/
theorem c4_counterexample :
    c4Run.2.mat "world" "total_bet" "world" "A" = some (1 / 10000000)
    ∧ bigRound1 7 (3 / 20000000) = 2 / 10000000
    ∧ (1 : ℚ) / 10000000 ≠ 2 / 10000000 := by
  refine ⟨?_, ?_, by norm_num⟩
  · have hlin := tick_linear_cells keyNowC [] c4RoundOf c6St 5 c4Round "Bull"
      c4Bet "world" rfl rfl rfl (by decide) (by decide) (by decide)
      (List.mem_cons_self c4Bet []) (by decide)
    have h : c4Run.2.mat "world" "total_bet" "world" "A"
        = some ((c6St.mat "world" "total_bet" "world" "A").getD 0
            + bigRound0 7 c4Bet.amount) := hlin.2.1
    have e : (c6St.mat "world" "total_bet" "world" "A").getD 0 = (0 : ℚ) := by
      decide
    have e2 : c4Bet.amount = (3 / 20000000 : ℚ) := rfl
    rw [h, e, e2]
    norm_num [bigRound0, truncInt, Int.tdiv]
  · norm_num [bigRound1, halfAwayInt, Int.tdiv]

/-- C4 witness: the truncation characterization instantiated at 3/2. -/
theorem c4_witness :
    (0 : ℚ) ≤ 3 / 2
    ∧ (bigRound0 7 (3 / 2) ≤ 3 / 2
      ∧ (3 : ℚ) / 2 - bigRound0 7 (3 / 2) < 1 / 10 ^ 7
      ∧ (bigRound0 7 (3 / 2) * 10 ^ 7).den = 1) :=
  ⟨by norm_num, c4_rounding_truncation.1 (3 / 2) (by norm_num)⟩

/-- C6 amended: in the scenario round (bets [{A,10,Bull},{B,5,Bear}], totals
15/10/5, Bull resolved, fee 3%) the computed Bull payout is 15/10 = 1.5, A's
bnb_won contribution is 1.5·10·0.97 − 10 = 4.55 and B's is 0, A gains
winnings 1 and losses 0, B gains winnings 0 and losses 1; in general each
bet's batch entry contributes amount_played += 1, winnings/losses according
to whether its position equals the resolved position, and bnb_won +=
payout(winningSide)·amount·(1−fee) − amount, truncated to 7 decimal places,
iff it won, else 0. -/
theorem c6_scenario_payouts :
    bigDiv 15 10 = 3 / 2
    ∧ c6Run.2.mat "world" "bnb_won" "world" "A" = some (91 / 20)
    ∧ c6Run.2.mat "world" "bnb_won" "world" "B" = some 0
    ∧ c6Run.2.mat "world" "winnings" "world" "A" = some 1
    ∧ c6Run.2.mat "world" "losses" "world" "A" = some 0
    ∧ c6Run.2.mat "world" "winnings" "world" "B" = some 0
    ∧ c6Run.2.mat "world" "losses" "world" "B" = some 1
    ∧ c6Run.2.mat "world" "amount_played" "world" "A" = some 1
    ∧ (∀ (pos : String) (bp bps : ℚ) (b : Bet) (x : Option ℚ),
        applyVals "amount_played" x (linearEntry pos bp bps b).2
            = some (x.getD 0 + 1)
        ∧ applyVals "winnings" x (linearEntry pos bp bps b).2
            = some (x.getD 0 + (if b.position = pos then 1 else 0))
        ∧ applyVals "losses" x (linearEntry pos bp bps b).2
            = some (x.getD 0 + (if b.position ≠ pos then 1 else 0))
        ∧ applyVals "bnb_won" x (linearEntry pos bp bps b).2
            = some (x.getD 0 + (if b.position = pos then
                bigRound0 7 ((if pos = "Bull" then bp else bps) * b.amount
                  * (1 - 3 / 100) - b.amount)
              else 0))) := by
  have hlinA := tick_linear_cells keyNowC [] c6RoundOf c6St 5 c6Round "Bull"
    betA "world" rfl (by decide) rfl (by decide) (by decide) (by decide)
    (by decide) (by decide)
  have hlinB := tick_linear_cells keyNowC [] c6RoundOf c6St 5 c6Round "Bull"
    betB "world" rfl (by decide) rfl (by decide) (by decide) (by decide)
    (by decide) (by decide)
  have eA0 : ∀ f : String, (c6St.mat "world" f "world" "A").getD 0 = (0 : ℚ) :=
    fun f => rfl
  have eB0 : ∀ f : String, (c6St.mat "world" f "world" "B").getD 0 = (0 : ℚ) :=
    fun f => rfl
  have et : c6Round.totalAmount = (15 : ℚ) := rfl
  have ebu : c6Round.bullAmount = (10 : ℚ) := rfl
  have ebe : c6Round.bearAmount = (5 : ℚ) := rfl
  have eaA : betA.amount = (10 : ℚ) := rfl
  have epA : betA.position = "Bull" := rfl
  have eaB : betB.amount = (5 : ℚ) := rfl
  have epB : betB.position = "Bear" := rfl
  refine ⟨?_, ?_, ?_, ?_, ?_, ?_, ?_, ?_, ?_⟩
  · norm_num [bigDiv, bigRound1, halfAwayInt, Int.tdiv]
  · have h : c6Run.2.mat "world" "bnb_won" "world" "A"
        = some ((c6St.mat "world" "bnb_won" "world" "A").getD 0
            + (if betA.position = "Bull" then
                bigRound0 7 ((if ("Bull" : String) = "Bull" then
                    bigDiv c6Round.totalAmount c6Round.bullAmount
                  else bigDiv c6Round.totalAmount c6Round.bearAmount)
                  * betA.amount * (1 - 3 / 100) - betA.amount)
              else 0)) := hlinA.2.2.2.2.1
    rw [h, eA0, epA, et, ebu, ebe, eaA]
    norm_num [bigRound0, bigDiv, bigRound1, truncInt, halfAwayInt, Int.tdiv]
  · have h : c6Run.2.mat "world" "bnb_won" "world" "B"
        = some ((c6St.mat "world" "bnb_won" "world" "B").getD 0
            + (if betB.position = "Bull" then
                bigRound0 7 ((if ("Bull" : String) = "Bull" then
                    bigDiv c6Round.totalAmount c6Round.bullAmount
                  else bigDiv c6Round.totalAmount c6Round.bearAmount)
                  * betB.amount * (1 - 3 / 100) - betB.amount)
              else 0)) := hlinB.2.2.2.2.1
    rw [h, eB0, epB, if_neg (by decide : ¬("Bear" : String) = "Bull")]
    norm_num
  · have h : c6Run.2.mat "world" "winnings" "world" "A"
        = some ((c6St.mat "world" "winnings" "world" "A").getD 0
            + (if betA.position = "Bull" then 1 else 0)) := hlinA.2.2.1
    rw [h, eA0, epA]
    norm_num
  · have h : c6Run.2.mat "world" "losses" "world" "A"
        = some ((c6St.mat "world" "losses" "world" "A").getD 0
            + (if betA.position ≠ "Bull" then 1 else 0)) := hlinA.2.2.2.1
    rw [h, eA0, epA]
    norm_num
  · have h : c6Run.2.mat "world" "winnings" "world" "B"
        = some ((c6St.mat "world" "winnings" "world" "B").getD 0
            + (if betB.position = "Bull" then 1 else 0)) := hlinB.2.2.1
    rw [h, eB0, epB, if_neg (by decide : ¬("Bear" : String) = "Bull")]
    norm_num
  · have h : c6Run.2.mat "world" "losses" "world" "B"
        = some ((c6St.mat "world" "losses" "world" "B").getD 0
            + (if betB.position ≠ "Bull" then 1 else 0)) := hlinB.2.2.2.1
    rw [h, eB0, epB, if_pos (by decide : ("Bear" : String) ≠ "Bull")]
    norm_num
  · have h : c6Run.2.mat "world" "amount_played" "world" "A"
        = some ((c6St.mat "world" "amount_played" "world" "A").getD 0 + 1) :=
      hlinA.1
    rw [h, eA0]
    norm_num
  · intro pos bp bps b x
    exact ⟨(applyVals_linear x 1 (bigRound0 7 b.amount)
        (if b.position = pos then 1 else 0) (if b.position ≠ pos then 1 else 0)
        (if b.position = pos then
          bigRound0 7 ((if pos = "Bull" then bp else bps) * b.amount
            * (1 - 3 / 100) - b.amount) else 0)
        (if b.position = pos then
          bigRound0 7 ((if pos = "Bull" then bp else bps) * 1
            * (1 - 3 / 100) - 1) else 0)).1,
      (applyVals_linear x 1 (bigRound0 7 b.amount)
        (if b.position = pos then 1 else 0) (if b.position ≠ pos then 1 else 0)
        (if b.position = pos then
          bigRound0 7 ((if pos = "Bull" then bp else bps) * b.amount
            * (1 - 3 / 100) - b.amount) else 0)
        (if b.position = pos then
          bigRound0 7 ((if pos = "Bull" then bp else bps) * 1
            * (1 - 3 / 100) - 1) else 0)).2.2.1,
      (applyVals_linear x 1 (bigRound0 7 b.amount)
        (if b.position = pos then 1 else 0) (if b.position ≠ pos then 1 else 0)
        (if b.position = pos then
          bigRound0 7 ((if pos = "Bull" then bp else bps) * b.amount
            * (1 - 3 / 100) - b.amount) else 0)
        (if b.position = pos then
          bigRound0 7 ((if pos = "Bull" then bp else bps) * 1
            * (1 - 3 / 100) - 1) else 0)).2.2.2.1,
      (applyVals_linear x 1 (bigRound0 7 b.amount)
        (if b.position = pos then 1 else 0) (if b.position ≠ pos then 1 else 0)
        (if b.position = pos then
          bigRound0 7 ((if pos = "Bull" then bp else bps) * b.amount
            * (1 - 3 / 100) - b.amount) else 0)
        (if b.position = pos then
          bigRound0 7 ((if pos = "Bull" then bp else bps) * 1
            * (1 - 3 / 100) - 1) else 0)).2.2.2.2.1⟩

/-- C6 counterexample: a winning bet of 10⁻⁸ has exact bnb_won contribution
payout·amount·0.97 − amount = 4.55·10⁻⁹, but the tick stores 0 (the value
is truncated to 7 decimal places), refuting the claim's unrounded general
formula. -/
theorem c6_counterexample :
    c6cRun.2.mat "world" "bnb_won" "world" "A" = some 0
    ∧ bigDiv 15 10 * (1 / 100000000) * (1 - 3 / 100) - 1 / 100000000
        = 91 / 20000000000
    ∧ (0 : ℚ) ≠ 91 / 20000000000 := by
  refine ⟨?_, ?_, by norm_num⟩
  · have hlin := tick_linear_cells keyNowC [] c6cRoundOf c6St 5 c6cRound
      "Bull" c6cBet "world" rfl rfl rfl (by decide) (by decide) (by decide)
      (List.mem_cons_self c6cBet []) (by decide)
    have h : c6cRun.2.mat "world" "bnb_won" "world" "A"
        = some ((c6St.mat "world" "bnb_won" "world" "A").getD 0
            + (if c6cBet.position = "Bull" then
                bigRound0 7 ((if ("Bull" : String) = "Bull" then
                    bigDiv c6cRound.totalAmount c6cRound.bullAmount
                  else bigDiv c6cRound.totalAmount c6cRound.bearAmount)
                  * c6cBet.amount * (1 - 3 / 100) - c6cBet.amount)
              else 0)) := hlin.2.2.2.2.1
    have e0 : (c6St.mat "world" "bnb_won" "world" "A").getD 0 = (0 : ℚ) := rfl
    have ep : c6cBet.position = "Bull" := rfl
    have ea : c6cBet.amount = (1 / 100000000 : ℚ) := rfl
    have et : c6cRound.totalAmount = (15 : ℚ) := rfl
    have ebu : c6cRound.bullAmount = (10 : ℚ) := rfl
    have ebe : c6cRound.bearAmount = (5 : ℚ) := rfl
    rw [h, e0, ep, ea, et, ebu, ebe]
    norm_num [bigRound0, bigDiv, bigRound1, truncInt, halfAwayInt, Int.tdiv]
  · norm_num [bigDiv, bigRound1, halfAwayInt, Int.tdiv]

end Leaderboard
